import Mathlib

/-!
# Verification of the PyGeom geometry data model and hierarchy builder

Shallow embedding of `PyGeom/Geometry.py`, `PyGeom/GeometryEngine.py` and
`PyGeom/GeometryROOT.py` (the parts the claims speak about), together with
proofs settling each claim.

Conventions of the embedding:
* Python floats are modelled exactly: as `ℚ` in the text-parsing layer
  (where all arithmetic is rational) and as `ℝ` in the ROOT building layer
  (where `math.radians` introduces `π`).
* Python strings are Lean `String`s; the string helpers used by the source
  (`str.split`, `str.strip`, `"|"`-splitting) are implemented below on
  `List Char` and wrapped.
* Fallible Python code (exceptions) is modelled with `Except PyErr`.
* Unbounded recursion (the mutually recursive
  `place_volume`/`get_volume_shape` pair) is modelled with an explicit fuel
  parameter; running out of fuel is `PyErr.recursionLimit`, matching
  Python's `RecursionError`.
-/

namespace PyGeom

/-- Python exception kinds raised by the modelled code paths. -/
inductive PyErr where
  | keyError (k : String)
  | nameError (msg : String)
  | valueError (msg : String)
  | indexError
  | recursionLimit
  deriving DecidableEq, Repr

/-! ## Character/string utilities

These model the Python primitives used by the source: `str.split()` (split
on whitespace runs, dropping empties), `str.split(sep)` (keep empties),
`str.strip()`, and membership tests such as `re.search(r'\*', p)`.
-/

/-- Whitespace characters recognised by Python's `str.split()`/`str.strip()`
(restricted to the ones that can occur in this format). -/
def isWs (c : Char) : Bool :=
  c = ' ' || c = '\t' || c = '\n' || c = '\r'

/-- Auxiliary for `splitWsL`: `cur` is the (reversed) current token. -/
def splitWsAux : List Char → List Char → List (List Char)
  | [], cur => if cur = [] then [] else [cur.reverse]
  | c :: cs, cur =>
      if isWs c then
        if cur = [] then splitWsAux cs [] else cur.reverse :: splitWsAux cs []
      else splitWsAux cs (c :: cur)

/-- Python `str.split()` with no argument: split on whitespace runs,
no empty tokens. -/
def splitWsL (s : List Char) : List (List Char) := splitWsAux s []

/-- Python `str.split(sep)` for a one-character separator: keeps empties. -/
def splitOnCharL (sep : Char) : List Char → List (List Char)
  | [] => [[]]
  | c :: cs =>
      if c = sep then [] :: splitOnCharL sep cs
      else match splitOnCharL sep cs with
        | [] => [[c]]          -- unreachable: splitOnCharL never returns []
        | t :: ts => (c :: t) :: ts

/-- Python `str.strip()`. -/
def stripL (s : List Char) : List Char :=
  ((s.dropWhile isWs).reverse.dropWhile isWs).reverse

def splitWs (s : String) : List String := (splitWsL s.data).map String.mk

def splitOnChar (sep : Char) (s : String) : List String :=
  (splitOnCharL sep s.data).map String.mk

def strip (s : String) : String := String.mk (stripL s.data)

/-- Does the string contain the character? (models `re.search(r'\*', p)`
and `'|' in s`-style tests). -/
def hasChar (c : Char) (s : String) : Bool := s.data.contains c

/-! ## Decimal printing and parsing

Models Python's `str()` on integers and `float()`/`int()` on decimal
strings.  `str()` of a Python float is modelled for integer-valued
components (`str(2)` = `"2"`); the parse direction also accepts a
fractional part the way `float()` does. -/

/-- One decimal digit to its character. -/
def digitChar : ℕ → Char
  | 0 => '0' | 1 => '1' | 2 => '2' | 3 => '3' | 4 => '4'
  | 5 => '5' | 6 => '6' | 7 => '7' | 8 => '8' | 9 => '9'
  | _ => 'X'

/-- A digit character back to its value. -/
def charDigit (c : Char) : Option ℕ :=
  if '0' ≤ c ∧ c ≤ '9' then some (c.toNat - 48) else none

/-- Little-endian digits of `n`; the first argument is fuel (`n` itself
suffices since the value is divided by ten each step). -/
def natDigitsAux : ℕ → ℕ → List ℕ
  | 0, _ => []
  | _ + 1, 0 => []
  | f + 1, n + 1 => ((n + 1) % 10) :: natDigitsAux f ((n + 1) / 10)

def natDigits (n : ℕ) : List ℕ := natDigitsAux n n

/-- `str(n)` for a Python non-negative int. -/
def natStr (n : ℕ) : String :=
  if n = 0 then "0" else String.mk ((natDigits n).reverse.map digitChar)

/-- `str(n)` for a Python int. -/
def intStr (n : ℤ) : String :=
  if n < 0 then "-" ++ natStr n.natAbs else natStr n.natAbs

/-- Parse a nonempty all-digit character list (big-endian) to a natural. -/
def parseNatL : List Char → Option ℕ
  | [] => none
  | cs => cs.foldl (fun acc c =>
      match acc, charDigit c with
      | some a, some d => some (10 * a + d)
      | _, _ => none) (some 0)

/-- `int(s)`: optional sign then digits. -/
def parseInt (s : String) : Option ℤ :=
  match s.data with
  | '-' :: rest => (parseNatL rest).map (fun n => -(n : ℤ))
  | l => (parseNatL l).map (fun n => (n : ℤ))

/-- `float(s)`: optional sign, integer digits, optional `.` + fraction
digits.  Returns the exact rational value. -/
def parseNum (s : String) : Option ℚ :=
  let core : List Char → Option ℚ := fun l =>
    match splitOnCharL '.' l with
    | [ip] => (parseNatL ip).map (fun n => (n : ℚ))
    | [ip, fp] =>
        match parseNatL ip, parseNatL fp with
        | some n, some f => some ((n : ℚ) + (f : ℚ) / (10 : ℚ) ^ fp.length)
        | _, _ => none
    | _ => none
  match s.data with
  | '-' :: rest => (core rest).map (fun q => -q)
  | l => core l

/-- `str()` of a numeric component.  Python floats holding integral values
participate in the round-trip claims; non-integral rationals are printed
with an explicit fractional marker (never produced by the claims below,
which hypothesise `parseNum (numStr q) = some q`). -/
def numStr (q : ℚ) : String :=
  if q.den = 1 then intStr q.num
  else intStr q.num ++ "." ++ natStr q.den

/-! ## Unit conversion (`Geometry.unit_convert_dict`, `GeometryROOT.convert`)

Python dicts keyed by unit symbols are modelled as `String → Option ℝ`
built by successive updates, in the order the source writes them.
`math.radians(1)` is `π/180` and `math.degrees(1)` is `180/π`. -/

/-- Dictionary update: `d[k] = v`. -/
def updD {α : Type} (d : String → Option α) (k : String) (v : α) :
    String → Option α :=
  fun x => if x = k then some v else d x

def emptyD {α : Type} : String → Option α := fun _ => none

noncomputable def radians1 : ℝ := Real.pi / 180

noncomputable def degrees1 : ℝ := 180 / Real.pi

/-- The literal default `conv_dict` of `unit_convert_dict`. -/
noncomputable def conv_default : String → Option ℝ :=
  updD (updD (updD (updD (updD (updD (updD (updD emptyD
    "mm" 0.1) "cm" 1) "m" 100) "inch" 2.54) "inches" 2.54)
    "rad" 1) "mrad" 0.001) "deg" radians1

/-- The literal default `trans_dict` of `unit_convert_dict`. -/
def trans_default : String → Option String :=
  updD (updD (updD (updD (updD (updD (updD (updD emptyD
    "mm" "cm") "cm" "cm") "m" "cm") "inch" "cm") "inches" "cm")
    "rad" "rad") "mrad" "rad") "deg" "rad"

/-- Set the four length keys of `trans_dict` to `u`. -/
def transLen (t : String → Option String) (u : String) : String → Option String :=
  updD (updD (updD (updD t "mm" u) "cm" u) "m" u) "inch" u

/-- Set the three angle keys of `trans_dict` to `u`. -/
def transAng (t : String → Option String) (u : String) : String → Option String :=
  updD (updD (updD t "rad" u) "mrad" u) "deg" u

/-- One iteration of the `for u in base_unit` loop in `unit_convert_dict`
(the `counts` keys are written at the end of every iteration). -/
noncomputable def unitLoopStep (st : (String → Option ℝ) × (String → Option String))
    (u : String) : (String → Option ℝ) × (String → Option String) :=
  let conv := st.1
  let trans := st.2
  let (conv, trans) :=
    if u = "cm" then
      (updD (updD (updD (updD conv "mm" 0.1) "cm" 1) "m" 100) "inch" 2.54,
       transLen trans u)
    else if u = "mm" then
      (updD (updD (updD (updD conv "mm" 1) "cm" 10) "m" 1000) "inch" 25.4,
       transLen trans u)
    else if u = "m" then
      (updD (updD (updD (updD conv "mm" 0.001) "cm" 0.01) "m" 1) "inch" 0.0254,
       transLen trans u)
    else if u = "inch" then
      (updD (updD (updD (updD conv "mm" (0.1 / 2.54)) "cm" (1 / 2.54))
         "m" (100 / 2.54)) "inch" 1,
       transLen trans u)
    else if u = "rad" then
      (updD (updD (updD conv "rad" 1) "mrad" 0.001) "deg" radians1,
       transAng trans u)
    else if u = "mrad" then
      (updD (updD (updD conv "rad" 1000) "mrad" 1) "deg" (1000 * radians1),
       transAng trans u)
    else if u = "deg" then
      (updD (updD (updD conv "rad" degrees1) "mrad" (0.001 * degrees1)) "deg" 1,
       transAng trans u)
    else (conv, trans)
  (updD conv "counts" 1, updD trans "counts" "counts")

/-- Python `u.strip().strip("*")`. -/
def stripStars (s : String) : String :=
  String.mk (((stripL s.data).dropWhile (· = '*')).reverse.dropWhile (· = '*')
    |>.reverse)

/-- `Geometry.unit_convert_dict` (the `base_unit` argument given as the
string form; list callers pass the words joined by spaces). -/
noncomputable def unit_convert_dict (base_unit : String) :
    (String → Option ℝ) × (String → Option String) :=
  let bu := (splitWs base_unit).map stripStars
  bu.foldl unitLoopStep (conv_default, trans_default)

/-- The conversion dictionary held by `GeometryROOT` (`__init__` builds it
with base `"cm deg"`). -/
noncomputable def rootConvDict : String → Option ℝ := (unit_convert_dict "cm deg").1

/-- `GeometryROOT.convert`. -/
noncomputable def convert (value : ℝ) (unit new_unit : String) : Option ℝ :=
  if new_unit = "cm" ∨ new_unit = "deg" then
    (rootConvDict (strip unit)).map (fun c => value * c)
  else
    ((unit_convert_dict new_unit).1 unit).map (fun c => value * c)

def lengthUnits : List String := ["mm", "cm", "m", "inch"]

def angleUnits : List String := ["rad", "mrad", "deg"]

/-! ## The `Geometry` record (`Geometry.py`)

`pos`/`rot`/`dimensions` numeric components are Python ints/floats; both
are modelled as `ℚ` (`str()` prints the int form, see `numStr`).  The unit
attributes can be a single shared string or a per-component list, modelled
by `UStr`.  The parsing functions are modelled with
`force_unit_conversion = False` — every claim below fixes the flag
disabled, so the converting branch of `parse_gemc_str` is not needed.
Diagnostic `print` calls are modelled as returned warning lists. -/

inductive UStr where
  | one (u : String)
  | many (us : List String)
  deriving DecidableEq, Repr

structure GRec where
  name : String
  mother : String
  description : String
  pos : List ℚ
  pos_units : UStr
  rot : List ℚ
  rot_units : UStr
  rot_order : String
  col : String
  g4type : String
  dimensions : List ℚ
  dims_units : UStr
  material : String
  magfield : String
  ncopy : ℤ
  pmany : ℤ
  exist : ℤ
  visible : ℤ
  style : ℤ
  sensitivity : String
  hittype : String
  identity : String
  deriving DecidableEq, Repr

/-- The engine/record default `base_units = ["cm", "rad"]`, as the
(length, angle) pair. -/
def baseUnits : String × String := ("cm", "rad")

/-- Python `' '.join(l)`. -/
def joinSpace : List String → String
  | [] => ""
  | [x] => x
  | x :: xs => x ++ " " ++ joinSpace xs

/-- One token of `parse_gemc_str`'s loop: returns the numeric value, the
unit attached to it, and the warnings printed.  A token without `*` keeps
the whole token as the number and attaches `base_unit[0]` — the *length*
base unit, whatever quantity the string belongs to. -/
def parseToken (base : String × String) (p : String) :
    Except PyErr (ℚ × String × List String) :=
  if hasChar '*' p = false then
    let warn := if 1 < p.length then
      ["Warning: expected unit but none found in:" ++ p] else []
    match parseNum p with
    | some v => .ok (v, base.1, warn)
    | none => .error (.valueError p)
  else
    match splitOnChar '*' p with
    | [num, unit] =>
        match parseNum num with
        | some v => .ok (v, unit, [])
        | none => .error (.valueError num)
    | _ => .error (.valueError p)

def parse_gemc_tokens (base : String × String) :
    List String → Except PyErr (List ℚ × List String × List String)
  | [] => .ok ([], [], [])
  | p :: rest => do
      let (v, u, w) ← parseToken base p
      let (vs, us, ws) ← parse_gemc_tokens base rest
      .ok (v :: vs, u :: us, w ++ ws)

/-- `Geometry.parse_gemc_str` (with `force_unit_conversion = False`). -/
def parse_gemc_str (base : String × String) (s : String) :
    Except PyErr (List ℚ × List String × List String) :=
  parse_gemc_tokens base (splitWs s)

/-- `Geometry.parse_gemc_rot_str`: result is (values, units, order,
warnings). -/
def parse_gemc_rot_str (base : String × String) (s : String) :
    Except PyErr (List ℚ × List String × String × List String) :=
  match splitWs s with
  | [] => .error .indexError
  | t0 :: rest =>
      if strip t0 = "ordered:" then
        match rest with
        | [] => .error .indexError
        | ord :: rest2 => do
            let (vs, us, ws) ← parse_gemc_str base (joinSpace rest2)
            .ok (vs, us, ord, ws)
      else if rest = [] then
        let w2 := if t0 = "0" then []
          else ["But I don't know what to do with it! Setting rotation to zero."]
        .ok ([0, 0, 0], [base.2, base.2, base.2], "",
          ("Warning: Rotation with only one entry: " ++ t0) :: w2)
      else do
        let (vs, us, ws) ← parse_gemc_str base s
        .ok (vs, us, "", ws)

/-- `Geometry.make_string`: one `value*unit ` token per component when the
unit list length matches, else the first unit for every component
(`units[0]` raises `IndexError` when there is no unit at all). -/
def make_string (item : List ℚ) (units : UStr) : Except PyErr String :=
  let ul := match units with | .one u => [u] | .many l => l
  if ul.length = item.length then
    .ok ((item.zip ul).foldr
      (fun (p : ℚ × String) acc => numStr p.1 ++ "*" ++ p.2 ++ " " ++ acc) "")
  else
    match ul with
    | [] => .error .indexError
    | u0 :: _ => .ok (item.foldr (fun v acc => numStr v ++ "*" ++ u0 ++ " " ++ acc) "")

def exceptOk {α : Type} : Except PyErr α → Bool
  | .ok _ => true
  | .error _ => false

instance {ε α : Type} [DecidableEq ε] [DecidableEq α] : DecidableEq (Except ε α) :=
  fun a b =>
    match a, b with
    | .ok x, .ok y =>
        if h : x = y then .isTrue (by rw [h])
        else .isFalse (by intro hh; cases hh; exact h rfl)
    | .error x, .error y =>
        if h : x = y then .isTrue (by rw [h])
        else .isFalse (by intro hh; cases hh; exact h rfl)
    | .ok _, .error _ => .isFalse (by intro hh; cases hh)
    | .error _, .ok _ => .isFalse (by intro hh; cases hh)

/-- `Geometry.validate`.  The pure type checks (fields 1,2,3,6,7,9–12 and
16–18, plus the "is a list of numbers" checks 41,42,51,52) cannot fail in
this typed model and are omitted; the reachable checks are kept with the
source's error codes. -/
def validate (g : GRec) : ℤ :=
  if g.pos.length ≠ 3 then 4
  else if exceptOk (make_string g.pos g.pos_units) = false then 43
  else if g.rot.length ≠ 3 then 5
  else if exceptOk (make_string g.rot g.rot_units) = false then 53
  else if exceptOk (make_string g.dimensions g.dims_units) = false then 8
  else if ¬(g.exist = 0 ∨ g.exist = 1) then 13
  else if ¬(g.visible = 0 ∨ g.visible = 1) then 14
  else if ¬(g.style = 0 ∨ g.style = 1) then 15
  else 0

/-- `Geometry.__str__`: the pipe-delimited GEMC text line. -/
def geo_line (g : GRec) : Except PyErr String := do
  let posS ← make_string g.pos g.pos_units
  let rotS ← make_string g.rot g.rot_units
  let dimS ← make_string g.dimensions g.dims_units
  .ok (g.name ++ " | " ++ g.mother ++ " | " ++ g.description ++ " | " ++
    posS ++ " | " ++
    (if g.rot_order ≠ "" then "ordered: " ++ g.rot_order ++ " " else "") ++
    rotS ++ " | " ++
    g.col ++ " | " ++ g.g4type ++ " | " ++ dimS ++ " | " ++
    g.material ++ " | " ++ g.magfield ++ " | " ++
    intStr g.ncopy ++ " | " ++ intStr g.pmany ++ " | " ++ intStr g.exist ++ " | " ++
    intStr g.visible ++ " | " ++ intStr g.style ++ " | " ++
    g.sensitivity ++ " | " ++ g.hittype ++ " | " ++ g.identity ++ " ")

def getField (obs : List String) (i : ℕ) : Except PyErr String :=
  match obs.get? i with
  | some x => .ok x
  | none => .error .indexError

def parseIntE (s : String) : Except PyErr ℤ :=
  match parseInt s with
  | some z => .ok z
  | none => .error (.valueError s)

/-- One line of `GeometryEngine.txt_read_geometry`: split on `|`, strip
each field, skip lines with fewer than two fields (`ok none`), then the
tuple branch of `Geometry.__init__` builds the record (`validate` is run
and only logs, so it does not affect the stored record). -/
def txtParseFields (obs : List String) : Except PyErr (Option GRec) :=
  if obs.length < 2 then .ok none
  else do
    let nm ← getField obs 0
    let mo ← getField obs 1
    let de ← getField obs 2
    let posS ← getField obs 3
    let rotS ← getField obs 4
    let co ← getField obs 5
    let g4 ← getField obs 6
    let dimS ← getField obs 7
    let ma ← getField obs 8
    let mg ← getField obs 9
    let ncS ← getField obs 10
    let pmS ← getField obs 11
    let exS ← getField obs 12
    let viS ← getField obs 13
    let stS ← getField obs 14
    let se ← getField obs 15
    let hi ← getField obs 16
    let idS ← getField obs 17
    let pr ← parse_gemc_str baseUnits posS
    let rr ← parse_gemc_rot_str baseUnits rotS
    let dr ← parse_gemc_str baseUnits dimS
    let nc ← parseIntE ncS
    let pm ← parseIntE pmS
    let ex ← parseIntE exS
    let vi ← parseIntE viS
    let st ← parseIntE stS
    .ok (some
      { name := nm, mother := mo, description := de
        pos := pr.1, pos_units := .many pr.2.1
        rot := rr.1, rot_units := .many rr.2.1, rot_order := rr.2.2.1
        col := co, g4type := g4
        dimensions := dr.1, dims_units := .many dr.2.1
        material := ma, magfield := mg
        ncopy := nc, pmany := pm, exist := ex, visible := vi, style := st
        sensitivity := se, hittype := hi, identity := idS })

def txt_parse_line (line : String) : Except PyErr (Option GRec) :=
  txtParseFields ((splitOnChar '|' line).map strip)

/-- Serialize one record and feed the line back through the text reader. -/
def roundTrip (g : GRec) : Except PyErr (Option GRec) :=
  (geo_line g).bind txt_parse_line

/-! ## `GeometryEngine` lookups and indexing (C8, C9, C10)

The engine's `_Geometry` attribute is the ordered list of records; only
the list operations matter here, so the functions take the list
directly. -/

/-- `GeometryEngine.find_children`: list comprehension filter on `mother`;
returns `None` (not `[]`) when nothing matches. -/
def find_children (gl : List GRec) (nm : String) : Option (List GRec) :=
  let found := gl.filter (fun x => x.mother == nm)
  if found = [] then none else some found

/-- `GeometryEngine.find_volume`: filter on `name`; `None` when empty,
else the first match, with a printed warning (the `Bool`) when more than
one record matches. -/
def find_volume (gl : List GRec) (nm : String) : Option GRec × Bool :=
  let found := gl.filter (fun x => x.name == nm)
  match found with
  | [] => (none, false)
  | f0 :: fs => (some f0, !fs.isEmpty)

/-- Result of `GeometryEngine.__getitem__` on an integer index: a record,
the out-of-bounds message string, or an uncaught `IndexError`. -/
inductive GetRes where
  | geom (g : GRec)
  | msg (s : String)
  | raised
  deriving DecidableEq, Repr

/-- `GeometryEngine.__getitem__` for `type(item) is int`: the bounds check
uses `item < 0 or item > len(...)` (strict `>`); otherwise Python list
indexing, which raises `IndexError` exactly when the index is the
length. -/
def engine_getitem_int (gl : List GRec) (i : ℤ) : GetRes :=
  if i < 0 ∨ (gl.length : ℤ) < i then
    .msg ("Geometry Object out of bounds for index" ++ intStr i)
  else
    match gl.get? i.toNat with
    | some g => .geom g
    | none => .raised

/-- A sample record used to instantiate witnesses. -/
def boxRec : GRec :=
  { name := "Box1", mother := "root", description := "a box"
    pos := [2, 0, 0], pos_units := .many ["cm", "cm", "cm"]
    rot := [0, 0, 0], rot_units := .many ["rad", "rad", "rad"], rot_order := ""
    col := "000000", g4type := "Box"
    dimensions := [10, 10, 10], dims_units := .many ["cm", "cm", "cm"]
    material := "Vacuum", magfield := "no"
    ncopy := 1, pmany := 1, exist := 1, visible := 1, style := 1
    sensitivity := "no", hittype := "no", identity := "no" }

/-- A record whose mother is not in any store. -/
def orphanRec : GRec := { boxRec with name := "Orphan", mother := "nowhere" }

/-! ### Token-level round trip -/

/-- The string `make_string` produces in the per-component case. -/
def tokcat (l : List (ℚ × String)) : String :=
  l.foldr (fun p acc => numStr p.1 ++ "*" ++ p.2 ++ " " ++ acc) ""

/-! ### Splitting the serialized line back into fields -/

/-- The shape of `__str__`'s output: fields joined by `" | "`, a single
trailing space after the last. -/
def interBar : List String → String
  | [] => ""
  | [x] => x ++ " "
  | x :: xs => x ++ " | " ++ interBar xs

/-! ### The C5 round-trip preconditions -/

/-- A text field that survives `|`-splitting and stripping unchanged. -/
def cleanStr (s : String) : Bool :=
  !(s.data.contains '|') && (strip s == s)

/-- A unit token that survives `*`-splitting, whitespace tokenization and
`|`-splitting unchanged. -/
def cleanUnit (u : String) : Bool :=
  !(u.data.contains '*') && !(u.data.contains '|') && u.data.all (fun c => !(isWs c))

/-- A usable rotation-order word. -/
def cleanOrd (s : String) : Bool :=
  (!(s == "")) && !(s.data.contains '|') && s.data.all (fun c => !(isWs c))

/-- Per-component unit list of the right length, all tokens clean. -/
def unitsReady (vals : List ℚ) : UStr → Bool
  | .one _ => false
  | .many l => (l.length == vals.length) && l.all cleanUnit

/-- Every component survives Python's `float(str(x))` round trip. -/
def numsReady (vals : List ℚ) : Bool :=
  vals.all (fun q => parseNum (numStr q) == some q)

def roundTripReady (g : GRec) : Bool :=
  cleanStr g.name && cleanStr g.mother && cleanStr g.description &&
  cleanStr g.col && cleanStr g.g4type && cleanStr g.material &&
  cleanStr g.magfield && cleanStr g.sensitivity && cleanStr g.hittype &&
  cleanStr g.identity &&
  unitsReady g.pos g.pos_units && unitsReady g.rot g.rot_units &&
  unitsReady g.dimensions g.dims_units &&
  (g.rot_order == "" || cleanOrd g.rot_order) &&
  (g.rot.length == 3) &&
  numsReady g.pos && numsReady g.rot && numsReady g.dimensions

/-! ## The ROOT builder layer (`GeometryROOT.py`)

`GeometryROOT.py` does `from Rotation import Rotation, Vector`, but
`Rotation.py` is not present in this repository's source tree.  `Vec3`
and `Rot3` below are therefore modelled from the spec: a vector in ℝ³
with componentwise subtraction, and a rotation as a 3×3 real matrix with
`rotateX/Y/Z` composing the standard axis rotations, `mul` the matrix
product, `apply` the action on vectors and `inv` the inverse
(transpose).  Everything else in this section is translated from
`GeometryROOT.py` itself. -/

structure Vec3 where
  x : ℝ
  y : ℝ
  z : ℝ

def Vec3.sub (a b : Vec3) : Vec3 := ⟨a.x - b.x, a.y - b.y, a.z - b.z⟩

structure Rot3 where
  a11 : ℝ
  a12 : ℝ
  a13 : ℝ
  a21 : ℝ
  a22 : ℝ
  a23 : ℝ
  a31 : ℝ
  a32 : ℝ
  a33 : ℝ

/-- `Rotation()`: the identity rotation. -/
def Rot3.ident : Rot3 := ⟨1, 0, 0, 0, 1, 0, 0, 0, 1⟩

def Rot3.mul (A B : Rot3) : Rot3 :=
  ⟨A.a11 * B.a11 + A.a12 * B.a21 + A.a13 * B.a31,
   A.a11 * B.a12 + A.a12 * B.a22 + A.a13 * B.a32,
   A.a11 * B.a13 + A.a12 * B.a23 + A.a13 * B.a33,
   A.a21 * B.a11 + A.a22 * B.a21 + A.a23 * B.a31,
   A.a21 * B.a12 + A.a22 * B.a22 + A.a23 * B.a32,
   A.a21 * B.a13 + A.a22 * B.a23 + A.a23 * B.a33,
   A.a31 * B.a11 + A.a32 * B.a21 + A.a33 * B.a31,
   A.a31 * B.a12 + A.a32 * B.a22 + A.a33 * B.a32,
   A.a31 * B.a13 + A.a32 * B.a23 + A.a33 * B.a33⟩

def Rot3.apply (A : Rot3) (v : Vec3) : Vec3 :=
  ⟨A.a11 * v.x + A.a12 * v.y + A.a13 * v.z,
   A.a21 * v.x + A.a22 * v.y + A.a23 * v.z,
   A.a31 * v.x + A.a32 * v.y + A.a33 * v.z⟩

/-- `Rotation.I`: the inverse of a rotation matrix is its transpose. -/
def Rot3.inv (A : Rot3) : Rot3 :=
  ⟨A.a11, A.a21, A.a31, A.a12, A.a22, A.a32, A.a13, A.a23, A.a33⟩

noncomputable def Rot3.rotX (t : ℝ) : Rot3 :=
  ⟨1, 0, 0,
   0, Real.cos t, -Real.sin t,
   0, Real.sin t, Real.cos t⟩

noncomputable def Rot3.rotY (t : ℝ) : Rot3 :=
  ⟨Real.cos t, 0, Real.sin t,
   0, 1, 0,
   -Real.sin t, 0, Real.cos t⟩

noncomputable def Rot3.rotZ (t : ℝ) : Rot3 :=
  ⟨Real.cos t, -Real.sin t, 0,
   Real.sin t, Real.cos t, 0,
   0, 0, 1⟩

noncomputable def Rot3.rotateX (r : Rot3) (t : ℝ) : Rot3 := Rot3.mul (Rot3.rotX t) r

noncomputable def Rot3.rotateY (r : Rot3) (t : ℝ) : Rot3 := Rot3.mul (Rot3.rotY t) r

noncomputable def Rot3.rotateZ (r : Rot3) (t : ℝ) : Rot3 := Rot3.mul (Rot3.rotZ t) r

/-- A `TGeoCombiTrans`: a translation vector together with a rotation. -/
structure CombiTrans where
  vec : Vec3
  rot : Rot3

/-- `compute_combi_trans`: the translation vector is passed through
unchanged (`vector.x(), vector.y(), vector.z()`); the `TGeoRotation` is
built by extracting the Euler angles with `GetXYZ` and re-applying them
negated in Z, Y, X order, which (per the spec's description of the
transform resolver, `Rotation.py` being absent) carries the same
rotation. -/
def compute_combi_trans (_name : String) (vector : Vec3) (rotation : Rot3) :
    CombiTrans :=
  ⟨vector, rotation⟩

/-- Python list indexing over the rational component lists. -/
def getQ (l : List ℚ) (i : ℕ) : Except PyErr ℚ :=
  match l.get? i with
  | some v => .ok v
  | none => .error .indexError

/-- Association-list model of a Python `dict`: lookup by key, newest
binding first. -/
def lookupA {α : Type} (k : String) : List (String × α) → Option α
  | [] => none
  | p :: t => if p.1 = k then some p.2 else lookupA k t

/-- `d[k] = v`: overwrite the binding for `k` if present, append it
otherwise (so lookup and insertion order both match `dict`). -/
def insertA {α : Type} (k : String) (v : α) : List (String × α) → List (String × α)
  | [] => [(k, v)]
  | p :: t => if p.1 = k then (k, v) :: t else p :: insertA k v t

/-- `d[k]` on a dict: `KeyError` when the key is absent. -/
def dictGet {α : Type} (d : List (String × α)) (k : String) : Except PyErr α :=
  match lookupA k d with
  | some v => .ok v
  | none => .error (.keyError k)

/-- `convert` as used by the builder: a missing unit key raises
`KeyError`. -/
noncomputable def convertE (value : ℝ) (unit new_unit : String) : Except PyErr ℝ :=
  match convert value unit new_unit with
  | some r => .ok r
  | none => .error (.keyError unit)

/-- `if type(units) is str: units = [unit, unit, unit]` — the shared-unit
normalization done at the top of the `compute_trans_*` helpers. -/
def ustr3 : UStr → List String
  | .one u => [u, u, u]
  | .many l => l

/-- `GeometryROOT.compute_trans_vector`: the position converted to cm. -/
noncomputable def compute_trans_vector (g : GRec) : Except PyErr Vec3 := do
  let us := ustr3 g.pos_units
  let p0 ← getQ g.pos 0
  let u0 ← getField us 0
  let x ← convertE (p0 : ℝ) u0 "cm"
  let p1 ← getQ g.pos 1
  let u1 ← getField us 1
  let y ← convertE (p1 : ℝ) u1 "cm"
  let p2 ← getQ g.pos 2
  let u2 ← getField us 2
  let z ← convertE (p2 : ℝ) u2 "cm"
  .ok ⟨x, y, z⟩

/-- `GeometryROOT.compute_trans_rotation`: the rotation built from the
`rot` triple (converted to radians) in the order selected by
`rot_order`; an unknown order raises `NameError`.  (The source has a
second, unreachable `elif` for `"yxz"`.) -/
noncomputable def compute_trans_rotation (g : GRec) : Except PyErr Rot3 := do
  let us := ustr3 g.rot_units
  let r0 ← getQ g.rot 0
  let u0 ← getField us 0
  let a0 ← convertE (r0 : ℝ) u0 "rad"
  let r1 ← getQ g.rot 1
  let u1 ← getField us 1
  let a1 ← convertE (r1 : ℝ) u1 "rad"
  let r2 ← getQ g.rot 2
  let u2 ← getField us 2
  let a2 ← convertE (r2 : ℝ) u2 "rad"
  if g.rot_order = "" ∨ g.rot_order = "xyz" then
    .ok (((Rot3.ident.rotateX a0).rotateY a1).rotateZ a2)
  else if g.rot_order = "zxy" then
    .ok (((Rot3.ident.rotateZ a0).rotateX a1).rotateY a2)
  else if g.rot_order = "yxz" then
    .ok (((Rot3.ident.rotateY a0).rotateX a1).rotateZ a2)
  else if g.rot_order = "zyx" then
    .ok (((Rot3.ident.rotateZ a0).rotateY a1).rotateX a2)
  else if g.rot_order = "yzx" then
    .ok (((Rot3.ident.rotateY a0).rotateZ a1).rotateX a2)
  else .error (.nameError g.rot_order)

def hexDig (c : Char) : Bool :=
  c.isDigit || ('A' ≤ c && c ≤ 'F') || ('a' ≤ c && c ≤ 'f')

/-- The alpha component of `get_color_alpha`: the regex
`"#?([A-F0-9]{6})([0-9]?)"` (case-insensitive, anchored at the start)
captures six hex digits and an optional alpha digit; on no match the
function returns `(21, 0)`.  The ROOT color index (the first component)
feeds only `SetLineColor`, which the state below does not track, so only
the alpha is modelled. -/
def get_color_alpha (color : String) : ℤ :=
  let cs := match color.data with
    | '#' :: t => t
    | l => l
  match cs with
  | c1 :: c2 :: c3 :: c4 :: c5 :: c6 :: rest =>
      if hexDig c1 && hexDig c2 && hexDig c3 && hexDig c4 &&
          hexDig c5 && hexDig c6 then
        match rest with
        | d :: _ =>
            match charDigit d with
            | some n => (n : ℤ)
            | none => 0
        | [] => 0
      else 0
  | _ => 0

/-- `GeometryROOT.find_material` returns the Python literal `0` for
`"Component"` and otherwise builds and returns a `TGeoMedium` handle,
which is never `0`; only the `medium == 0` test is consumed by
`place_volume`, so the handle is modelled as `1`.  The transparency
argument affects only the medium's name and display, not that test. -/
def find_material (material : String) (_trans : ℤ) : ℤ :=
  if material = "Component" then 0 else 1

def wordChar (c : Char) : Bool :=
  c.isLower || c.isUpper || c.isDigit || c == '_'

def opChar (c : Char) : Bool := c == '*' || c == '+' || c == '-'

/-- The capture groups of
`re.match(r"Operation:([~@])?\W*(\w*)\W*([*+-])\W*(\w*)\W*", ...)`:
optional `~`/`@` marker, first operand name, operator, second operand
name.  Non-word runs between the groups are skipped; if no `[*+-]`
operator is found the match fails (`None`). -/
def operTail (rest : List Char) : Option (Option Char × String × Char × String) :=
  let sp : Option Char × List Char :=
    match rest with
    | c :: t => if c = '~' ∨ c = '@' then (some c, t) else (none, rest)
    | [] => (none, [])
  let r2 := sp.2.dropWhile (fun c => !(wordChar c) && !(opChar c))
  let nm1 := r2.takeWhile wordChar
  let r3 := (r2.dropWhile wordChar).dropWhile (fun c => !(wordChar c) && !(opChar c))
  match r3 with
  | o :: r4 =>
      if opChar o then
        let r5 := r4.dropWhile (fun c => !(wordChar c))
        some (sp.1, String.mk nm1, o, String.mk (r5.takeWhile wordChar))
      else none
  | [] => none

def operParse (s : String) : Option (Option Char × String × Char × String) :=
  match s.data with
  | 'O' :: 'p' :: 'e' :: 'r' :: 'a' :: 't' :: 'i' :: 'o' :: 'n' :: ':' :: rest =>
      operTail rest
  | _ => none

def strStartsL : List Char → List Char → Bool
  | [], _ => true
  | _ :: _, [] => false
  | p :: ps, c :: cs => p == c && strStartsL ps cs

/-- `re.match(pat ++ ".*", s)` for a literal `pat`: a prefix test. -/
def strStarts (p s : String) : Bool := strStartsL p.data s.data

/-- The primitive shape types other than `Box` enumerated by
`get_volume_shape`'s `elif` chain; their dimension conversions build a
ROOT shape whose parameters the model does not track. -/
def primTypes : List String :=
  ["Tube", "Sphere", "Parallelepiped", "Trd", "G4Trap", "G4GenericTrap",
   "EllipticalTube", "Eltu", "Paraboloid", "Ellipsoid", "Cons", "Polycone",
   "Pgon", "Polyhedra"]

/-- The value stored in `self._shapes`. -/
inductive RShape where
  | box (dx dy dz : ℝ)
  | prim (g4type : String)
  | composite (oper : Char) (sh1 sh2 : RShape) (transrot2 : CombiTrans)

/-- The builder state: `self._shapes`, `self._translations`,
`self._volumes` (names only; `create_root_volume` registers `"root"`),
and the `AddNode` calls as `(mother, name, transrot)` triples. -/
structure RState where
  shapes : List (String × RShape)
  translations : List (String × Vec3 × Rot3)
  volumes : List String
  nodes : List (String × String × CombiTrans)

mutual

/-- `GeometryROOT.place_volume`, with an explicit recursion-fuel budget:
every nested call consumes one unit, and exhaustion models Python's
`RecursionError`.  `none` for the mother is Python's default `None`
(replaced by the record's own mother).  A missing mother volume or an
already-built shape returns with the state unchanged (the source prints
and returns). -/
noncomputable def place_volume (store : List GRec) (fuel : ℕ) (geo : GRec)
    (motherArg : Option String) (st : RState) : Except PyErr RState :=
  match fuel with
  | 0 => .error .recursionLimit
  | fuel + 1 =>
      if st.volumes.contains (motherArg.getD geo.mother) = false then .ok st
      else if (lookupA geo.name st.shapes).isSome then .ok st
      else do
        let transp0 := get_color_alpha geo.col * 10
        let transp := if geo.style = 0 ∧ transp0 < 70 then 70 else transp0
        let medium := find_material geo.material transp
        let translate ← compute_trans_vector geo
        let rotate ← compute_trans_rotation geo
        let st1 : RState :=
          { st with translations :=
              insertA geo.name (translate, rotate) st.translations }
        let transrot := compute_combi_trans geo.name translate rotate
        if geo.exist = 0 then .ok st1
        else do
          let r ← get_volume_shape store fuel geo st1
          if medium = 0 then .ok r.1
          else .ok { r.1 with
                       volumes := geo.name :: r.1.volumes,
                       nodes := (motherArg.getD geo.mother, geo.name, transrot)
                         :: r.1.nodes }

/-- `GeometryROOT.get_volume_shape`: build the shape for a record and
memoize it under the record's name.  In the `Operation:` branch a
missing operand shape is first built by a recursive `place_volume` (a
no-op when `find_volume` returns `None`, as `place_volume(None)` only
prints); the operand lookups afterwards raise `KeyError` if the shape is
still absent.  An unmatched descriptor or unknown type raises
(`NameError`; the `AttributeError` of `match.group` on a failed
`Operation:` regex match is modelled by the same error class). -/
noncomputable def get_volume_shape (store : List GRec) (fuel : ℕ) (geo : GRec)
    (st : RState) : Except PyErr (RState × RShape) :=
  match fuel with
  | 0 => .error .recursionLimit
  | fuel + 1 => do
      let r ←
        (if geo.g4type = "Box" then do
          let us := ustr3 geo.dims_units
          let d0 ← getQ geo.dimensions 0
          let u0 ← getField us 0
          let x ← convertE (d0 : ℝ) u0 "cm"
          let d1 ← getQ geo.dimensions 1
          let u1 ← getField us 1
          let y ← convertE (d1 : ℝ) u1 "cm"
          let d2 ← getQ geo.dimensions 2
          let u2 ← getField us 2
          let z ← convertE (d2 : ℝ) u2 "cm"
          .ok ((st, RShape.box x y z) : RState × RShape)
        else if primTypes.contains geo.g4type then
          .ok (st, RShape.prim geo.g4type)
        else if strStarts "Operation:" geo.g4type then
          match operParse geo.g4type with
          | none => .error (.nameError geo.g4type)
          | some (sp, sh1, oper, sh2) => do
              let stA ←
                if (lookupA sh1 st.shapes).isSome then .ok st
                else
                  match (find_volume store sh1).1 with
                  | some fg => place_volume store fuel fg none st
                  | none => .ok st
              let stB ←
                if (lookupA sh2 stA.shapes).isSome then .ok stA
                else
                  match (find_volume store sh2).1 with
                  | some fg => place_volume store fuel fg none stA
                  | none => .ok stA
              let shape1 ← dictGet stB.shapes sh1
              let shape2 ← dictGet stB.shapes sh2
              let tr1 ← dictGet stB.translations sh1
              let tr2 ← dictGet stB.translations sh2
              let transrot2 :=
                if sp = some '@' then
                  compute_combi_trans geo.name
                    (Rot3.apply tr1.2 (Vec3.sub tr2.1 tr1.1))
                    (Rot3.mul tr2.2 (Rot3.inv tr1.2))
                else compute_combi_trans sh2 tr2.1 tr2.2
              .ok (stB, RShape.composite oper shape1 shape2 transrot2)
        else if strStarts "CopyOf " geo.g4type then do
          let nm := String.mk (geo.g4type.data.drop 7)
          let sh ← dictGet st.shapes nm
          .ok (st, sh)
        else .error (.nameError geo.g4type))
      .ok ({ r.1 with shapes := insertA geo.name r.2 r.1.shapes }, r.2)

end

/-- The state after `create_root_volume`: only the `"root"` volume. -/
def rootState : RState := ⟨[], [], ["root"], []⟩

/-- `Box2`: as `boxRec` but at `(5, 0, 0)` cm. -/
def box2Rec : GRec :=
  { boxRec with name := "Box2", pos := [5, 0, 0] }

/-- The combination record of the C1 scenario. -/
def comboRec : GRec :=
  { boxRec with name := "Combo", g4type := "Operation:@Box1-Box2" }

def demoStore : List GRec := [boxRec, box2Rec, comboRec]

/-- Two records whose Operation descriptors name each other. -/
def cycARec : GRec :=
  { boxRec with name := "CycA", g4type := "Operation:@CycB+CycB" }

def cycBRec : GRec :=
  { boxRec with name := "CycB", g4type := "Operation:@CycA+CycA" }

def cycStore : List GRec := [cycARec, cycBRec]

/-- A record with `exist = 0`. -/
def czRec : GRec :=
  { boxRec with name := "CZero", exist := 0 }

/-- An operation record using the `exist = 0` record as both operands. -/
def czCombo : GRec :=
  { boxRec with name := "CCombo", g4type := "Operation:@CZero+CZero" }

def czStore : List GRec := [czRec, czCombo]

noncomputable def cycV : Vec3 :=
  ⟨((2 : ℚ) : ℝ) * 1, ((0 : ℚ) : ℝ) * 1, ((0 : ℚ) : ℝ) * 1⟩

noncomputable def cycR : Rot3 :=
  ((Rot3.ident.rotateX (((0 : ℚ) : ℝ) * 1)).rotateY
    (((0 : ℚ) : ℝ) * 1)).rotateZ (((0 : ℚ) : ℝ) * 1)

noncomputable def cycStA : RState :=
  { rootState with translations := [("CycA", cycV, cycR)] }

noncomputable def cycStB : RState :=
  { rootState with translations := [("CycB", cycV, cycR)] }

noncomputable def cycStAB : RState :=
  { rootState with translations := [("CycA", cycV, cycR), ("CycB", cycV, cycR)] }

noncomputable def cycStBA : RState :=
  { rootState with translations := [("CycB", cycV, cycR), ("CycA", cycV, cycR)] }

/-! ### Round-trip lemmas for the numeric strings -/

theorem charDigit_digitChar {d : ℕ} (h : d < 10) :
    charDigit (digitChar d) = some d := by
  interval_cases d <;> rfl

theorem natDigitsAux_spec : ∀ f n, n ≤ f →
    (natDigitsAux f n).foldr (fun d acc => d + 10 * acc) 0 = n := by
  intro f
  induction f with
  | zero => intro n h; interval_cases n; rfl
  | succ f ih =>
      intro n h
      match n with
      | 0 => rfl
      | n + 1 =>
          have hdiv : (n + 1) / 10 ≤ f := by
            have : (n + 1) / 10 < n + 1 := Nat.div_lt_self (Nat.succ_pos n) (by norm_num)
            omega
          simp only [natDigitsAux, List.foldr]
          rw [ih _ hdiv]
          omega

theorem natDigits_spec (n : ℕ) :
    (natDigits n).foldr (fun d acc => d + 10 * acc) 0 = n :=
  natDigitsAux_spec n n le_rfl

theorem natDigitsAux_lt_ten : ∀ f n d, d ∈ natDigitsAux f n → d < 10 := by
  intro f
  induction f with
  | zero => intro n d h; simp [natDigitsAux] at h
  | succ f ih =>
      intro n d h
      match n with
      | 0 => simp [natDigitsAux] at h
      | n + 1 =>
          simp only [natDigitsAux, List.mem_cons] at h
          rcases h with h | h

          · omega
          · exact ih _ _ h

theorem digitChar_ne_dash (d : ℕ) : digitChar d ≠ '-' := by
  unfold digitChar; split <;> decide

theorem digitChar_ne_dot (d : ℕ) : digitChar d ≠ '.' := by
  unfold digitChar; split <;> decide

theorem splitOnCharL_single {c : Char} : ∀ {l : List Char}, l.contains c = false →
    splitOnCharL c l = [l] := by
  intro l
  induction l with
  | nil => intro _; rfl
  | cons x xs ih =>
      intro h
      simp only [List.contains_cons, Bool.or_eq_false_iff, beq_eq_false_iff_ne] at h
      rw [splitOnCharL, if_neg (Ne.symm h.1), ih h.2]

theorem parseNatL_foldl (ds : List ℕ) (h : ∀ d ∈ ds, d < 10) (a : ℕ) :
    (ds.map digitChar).foldl (fun acc c =>
      match acc, charDigit c with
      | some a, some d => some (10 * a + d)
      | _, _ => none) (some a)
    = some (ds.foldl (fun a d => 10 * a + d) a) := by
  induction ds generalizing a with
  | nil => rfl
  | cons d ds ih =>
      simp only [List.map_cons, List.foldl]
      rw [charDigit_digitChar (h d (List.mem_cons_self d ds))]
      exact ih (fun x hx => h x (List.mem_cons_of_mem d hx)) _

theorem parseNatL_digits (ds : List ℕ) (h : ∀ d ∈ ds, d < 10) (hne : ds ≠ []) :
    parseNatL (ds.map digitChar) = some (ds.foldl (fun a d => 10 * a + d) 0) := by
  match ds, hne with
  | d :: ds, _ =>
      show (List.map digitChar (d :: ds)).foldl _ (some 0) = _
      exact parseNatL_foldl (d :: ds) h 0

theorem foldl_digits_eq_foldr (ds : List ℕ) :
    ds.reverse.foldl (fun a d => 10 * a + d) 0
      = ds.foldr (fun d acc => d + 10 * acc) 0 := by
  rw [List.foldl_reverse]
  congr 1
  funext d a
  omega

theorem natDigits_ne_nil {n : ℕ} (h : n ≠ 0) : natDigits n ≠ [] := by
  match n, h with
  | n + 1, _ => simp [natDigits, natDigitsAux]

theorem parseNatL_natStr (n : ℕ) : parseNatL (natStr n).data = some n := by
  by_cases h0 : n = 0
  · subst h0; rfl
  · have hlt : ∀ d ∈ (natDigits n).reverse, d < 10 := by
      intro d hd
      exact natDigitsAux_lt_ten n n d (List.mem_reverse.mp hd)
    have hne : (natDigits n).reverse ≠ [] := by
      simpa using natDigits_ne_nil h0
    have hdat : (natStr n).data = (natDigits n).reverse.map digitChar := by
      simp [natStr, if_neg h0]
    rw [hdat, parseNatL_digits _ hlt hne, foldl_digits_eq_foldr, natDigits_spec]

theorem natStr_all_digits (n : ℕ) :
    ∀ c ∈ (natStr n).data, ∃ d, d < 10 ∧ c = digitChar d := by
  by_cases h0 : n = 0
  · subst h0
    intro c hc
    simp only [natStr, if_pos rfl] at hc
    refine ⟨0, by norm_num, ?_⟩
    simpa using hc
  · intro c hc
    simp only [natStr, if_neg h0] at hc
    have : c ∈ ((natDigits n).reverse.map digitChar) := hc
    obtain ⟨d, hd, rfl⟩ := List.mem_map.mp this
    exact ⟨d, natDigitsAux_lt_ten n n d (List.mem_reverse.mp hd), rfl⟩

theorem natStr_no_dash (n : ℕ) : ∀ c ∈ (natStr n).data, c ≠ '-' := by
  intro c hc
  obtain ⟨d, _, rfl⟩ := natStr_all_digits n c hc
  exact digitChar_ne_dash d

theorem natStr_no_dot (n : ℕ) : (natStr n).data.contains '.' = false := by
  rw [List.contains_eq_any_beq]
  simp only [List.any_eq_false, beq_iff_eq]
  intro c hc
  obtain ⟨d, _, rfl⟩ := natStr_all_digits n c hc
  exact (digitChar_ne_dot d).symm

theorem data_append (a b : String) : (a ++ b).data = a.data ++ b.data := rfl

theorem parseInt_intStr (z : ℤ) : parseInt (intStr z) = some z := by
  by_cases hz : z < 0
  · have hdata : (intStr z).data = '-' :: (natStr z.natAbs).data := by
      simp only [intStr, if_pos hz]
      rfl
    rw [parseInt]
    rw [hdata]
    simp only [parseNatL_natStr]
    have h1 : -((z.natAbs : ℕ) : ℤ) = z := by omega
    simp [h1]
    rw [abs_of_neg hz, neg_neg]
  · have hdata : (intStr z).data = (natStr z.natAbs).data := by
      simp only [intStr, if_neg hz]
    rw [parseInt, hdata]
    split
    · next rest heq =>
        have hmem : '-' ∈ (natStr z.natAbs).data := by
          rw [heq]; exact List.mem_cons_self _ _
        exact absurd rfl (natStr_no_dash z.natAbs '-' hmem)
    · simp only [parseNatL_natStr]
      have h1 : ((z.natAbs : ℕ) : ℤ) = z := by omega
      simp [h1]

theorem parseNum_intStr (z : ℤ) : parseNum (intStr z) = some (z : ℚ) := by
  by_cases hz : z < 0
  · have hdata : (intStr z).data = '-' :: (natStr z.natAbs).data := by
      simp only [intStr, if_pos hz]; rfl
    rw [parseNum, hdata]
    simp only [splitOnCharL_single (natStr_no_dot z.natAbs), parseNatL_natStr]
    have h2 : ((z.natAbs : ℕ) : ℤ) = -z := by omega
    have h3 : ((z.natAbs : ℕ) : ℚ) = -(z : ℚ) := by
      rw [show ((z.natAbs : ℕ) : ℚ) = (((z.natAbs : ℕ) : ℤ) : ℚ) from (Int.cast_natCast z.natAbs).symm, h2]
      push_cast; ring
    simp [h3]
  · have hdata : (intStr z).data = (natStr z.natAbs).data := by
      simp only [intStr, if_neg hz]
    rw [parseNum, hdata]
    split
    · next rest heq =>
        have hmem : '-' ∈ (natStr z.natAbs).data := by
          rw [heq]; exact List.mem_cons_self _ _
        exact absurd rfl (natStr_no_dash z.natAbs '-' hmem)
    · simp only [splitOnCharL_single (natStr_no_dot z.natAbs), parseNatL_natStr]
      have h2 : ((z.natAbs : ℕ) : ℤ) = z := by omega
      have h3 : ((z.natAbs : ℕ) : ℚ) = (z : ℚ) := by
        rw [show ((z.natAbs : ℕ) : ℚ) = (((z.natAbs : ℕ) : ℤ) : ℚ) from (Int.cast_natCast z.natAbs).symm, h2]
      simp [h3]

/-- Python's `float(str(x))` round trip, for integer-valued components. -/
theorem parseNum_numStr_of_den_one {q : ℚ} (h : q.den = 1) :
    parseNum (numStr q) = some q := by
  rw [numStr, if_pos h, parseNum_intStr, Rat.coe_int_num_of_den_eq_one h]

/-- C6: for every value `v` and every pair of unit symbols of the same
quantity kind (both lengths among mm, cm, m, inch or both angles among
rad, mrad, deg), `convert (convert v a b) b a = v` — exactly, in the real
model (the floating-point tolerance of the claim is not needed). -/
theorem C6_convert_roundtrip (v : ℝ) (a b : String)
    (h : (a ∈ lengthUnits ∧ b ∈ lengthUnits) ∨ (a ∈ angleUnits ∧ b ∈ angleUnits)) :
    (convert v a b).bind (fun x => convert x b a) = some v := by
  have hpi := Real.pi_ne_zero
  rcases h with ⟨ha, hb⟩ | ⟨ha, hb⟩
  · fin_cases ha <;> fin_cases hb
    · show some (v * (1 : ℝ) * (1 : ℝ)) = some v
      rw [Option.some.injEq]
      ring
    · show some (v * (0.1 : ℝ) * (10 : ℝ)) = some v
      rw [Option.some.injEq]
      ring
    · show some (v * (0.001 : ℝ) * (1000 : ℝ)) = some v
      rw [Option.some.injEq]
      ring
    · show some (v * (0.1 / 2.54 : ℝ) * (25.4 : ℝ)) = some v
      rw [Option.some.injEq]
      ring
    · show some (v * (10 : ℝ) * (0.1 : ℝ)) = some v
      rw [Option.some.injEq]
      ring
    · show some (v * (1 : ℝ) * (1 : ℝ)) = some v
      rw [Option.some.injEq]
      ring
    · show some (v * (0.01 : ℝ) * (100 : ℝ)) = some v
      rw [Option.some.injEq]
      ring
    · show some (v * (1 / 2.54 : ℝ) * (2.54 : ℝ)) = some v
      rw [Option.some.injEq]
      ring
    · show some (v * (1000 : ℝ) * (0.001 : ℝ)) = some v
      rw [Option.some.injEq]
      ring
    · show some (v * (100 : ℝ) * (0.01 : ℝ)) = some v
      rw [Option.some.injEq]
      ring
    · show some (v * (1 : ℝ) * (1 : ℝ)) = some v
      rw [Option.some.injEq]
      ring
    · show some (v * (100 / 2.54 : ℝ) * (0.0254 : ℝ)) = some v
      rw [Option.some.injEq]
      ring
    · show some (v * (25.4 : ℝ) * (0.1 / 2.54 : ℝ)) = some v
      rw [Option.some.injEq]
      ring
    · show some (v * (2.54 : ℝ) * (1 / 2.54 : ℝ)) = some v
      rw [Option.some.injEq]
      ring
    · show some (v * (0.0254 : ℝ) * (100 / 2.54 : ℝ)) = some v
      rw [Option.some.injEq]
      ring
    · show some (v * (1 : ℝ) * (1 : ℝ)) = some v
      rw [Option.some.injEq]
      ring
  · fin_cases ha <;> fin_cases hb
    · show some (v * (1 : ℝ) * (1 : ℝ)) = some v
      rw [Option.some.injEq]
      ring
    · show some (v * (1000 : ℝ) * (0.001 : ℝ)) = some v
      rw [Option.some.injEq]
      ring
    · show some (v * (degrees1 : ℝ) * (radians1 : ℝ)) = some v
      rw [Option.some.injEq, radians1, degrees1]
      field_simp
      try ring
    · show some (v * (0.001 : ℝ) * (1000 : ℝ)) = some v
      rw [Option.some.injEq]
      ring
    · show some (v * (1 : ℝ) * (1 : ℝ)) = some v
      rw [Option.some.injEq]
      ring
    · show some (v * (0.001 * degrees1 : ℝ) * (1000 * radians1 : ℝ)) = some v
      rw [Option.some.injEq, radians1, degrees1]
      field_simp
      try ring
    · show some (v * (radians1 : ℝ) * (degrees1 : ℝ)) = some v
      rw [Option.some.injEq, radians1, degrees1]
      field_simp
      try ring
    · show some (v * (1000 * radians1 : ℝ) * (0.001 * degrees1 : ℝ)) = some v
      rw [Option.some.injEq, radians1, degrees1]
      field_simp
      try ring
    · show some (v * (1 : ℝ) * (1 : ℝ)) = some v
      rw [Option.some.injEq]
      ring

theorem C6_convert_roundtrip_witness :
    (("mm" ∈ lengthUnits ∧ "cm" ∈ lengthUnits) ∨
      ("mm" ∈ angleUnits ∧ "cm" ∈ angleUnits)) ∧
    (convert 2 "mm" "cm").bind (fun x => convert x "cm" "mm") = some 2 :=
  ⟨Or.inl ⟨by decide, by decide⟩,
   C6_convert_roundtrip 2 "mm" "cm" (Or.inl ⟨by decide, by decide⟩)⟩

/-! ### Lemmas about whitespace splitting -/

theorem splitWsAux_props : ∀ (s acc : List Char), (∀ c ∈ acc, isWs c = false) →
    ∀ t ∈ splitWsAux s acc, t ≠ [] ∧ ∀ c ∈ t, isWs c = false := by
  intro s
  induction s with
  | nil =>
      intro acc hacc t ht
      rw [splitWsAux] at ht
      split at ht
      · simp at ht
      · next hne =>
          simp only [List.mem_singleton] at ht
          subst ht
          exact ⟨by simpa using hne, fun c hc => hacc c (List.mem_reverse.mp hc)⟩
  | cons c cs ih =>
      intro acc hacc t ht
      rw [splitWsAux] at ht
      split at ht
      · split at ht
        · exact ih [] (by simp) t ht
        · next hne =>
            simp only [List.mem_cons] at ht
            rcases ht with rfl | ht
            · exact ⟨by simpa using hne, fun x hx => hacc x (List.mem_reverse.mp hx)⟩
            · exact ih [] (by simp) t ht
      · next hws =>
          refine ih (c :: acc) ?_ t ht
          intro x hx
          rcases List.mem_cons.mp hx with rfl | hx
          · simpa using hws
          · exact hacc x hx

theorem splitWsAux_prepend (s : List Char) : ∀ (t acc : List Char),
    (∀ c ∈ t, isWs c = false) → (t ≠ [] ∨ acc ≠ []) →
    splitWsAux (t ++ ' ' :: s) acc = (acc.reverse ++ t) :: splitWsAux s [] := by
  intro t
  induction t with
  | nil =>
      intro acc _ hne
      have hacc : acc ≠ [] := by tauto
      simp only [List.nil_append, splitWsAux, isWs]
      rw [if_pos (by norm_num), if_neg hacc]
      simp
  | cons c t ih =>
      intro acc hws _
      have hc : isWs c = false := hws c (List.mem_cons_self c t)
      show splitWsAux (c :: (t ++ ' ' :: s)) acc = _
      rw [splitWsAux, if_neg (by simp [hc])]
      have := ih (c :: acc) (fun x hx => hws x (List.mem_cons_of_mem c hx)) (Or.inr (by simp))
      rw [List.reverse_cons, List.append_assoc] at this
      exact this

theorem splitWsAux_last : ∀ (t acc : List Char),
    (∀ c ∈ t, isWs c = false) → (t ≠ [] ∨ acc ≠ []) →
    splitWsAux t acc = [acc.reverse ++ t] := by
  intro t
  induction t with
  | nil =>
      intro acc _ hne
      have hacc : acc ≠ [] := by tauto
      simp only [splitWsAux]
      rw [if_neg hacc]
      simp
  | cons c t ih =>
      intro acc hws _
      have hc : isWs c = false := hws c (List.mem_cons_self c t)
      rw [splitWsAux, if_neg (by simp [hc])]
      have := ih (c :: acc) (fun x hx => hws x (List.mem_cons_of_mem c hx)) (Or.inr (by simp))
      rw [List.reverse_cons, List.append_assoc] at this
      exact this

theorem string_mk_data (s : String) : String.mk s.data = s := rfl

theorem data_ne_nil {s : String} (h : s ≠ "") : s.data ≠ [] := by
  intro hn
  exact h (String.ext hn)

theorem splitWs_cons_token (t s : String)
    (h1 : ∀ c ∈ t.data, isWs c = false) (h2 : t ≠ "") :
    splitWs (t ++ " " ++ s) = t :: splitWs s := by
  have hd : (t ++ " " ++ s).data = t.data ++ ' ' :: s.data := by
    simp [data_append]
  rw [splitWs, splitWsL, hd,
    splitWsAux_prepend s.data t.data [] h1 (Or.inl (data_ne_nil h2))]
  simp [splitWs, splitWsL, string_mk_data]

theorem splitWs_single (t : String)
    (h1 : ∀ c ∈ t.data, isWs c = false) (h2 : t ≠ "") :
    splitWs t = [t] := by
  rw [splitWs, splitWsL, splitWsAux_last t.data [] h1 (Or.inl (data_ne_nil h2))]
  simp [string_mk_data]

theorem splitWs_joinSpace : ∀ ts : List String,
    (∀ t ∈ ts, t ≠ "" ∧ ∀ c ∈ t.data, isWs c = false) →
    splitWs (joinSpace ts) = ts := by
  intro ts
  induction ts with
  | nil => intro _; rfl
  | cons x xs ih =>
      intro h
      match xs, ih with
      | [], _ =>
          exact splitWs_single x (h x (by simp)).2 (h x (by simp)).1
      | y :: ys, ih =>
          rw [show joinSpace (x :: y :: ys) = x ++ " " ++ joinSpace (y :: ys) from rfl,
            splitWs_cons_token x (joinSpace (y :: ys))
              (h x (by simp)).2 (h x (by simp)).1]
          rw [ih (fun t ht => h t (List.mem_cons_of_mem x ht))]

theorem splitWs_mem_props (s : String) :
    ∀ t ∈ splitWs s, t ≠ "" ∧ ∀ c ∈ t.data, isWs c = false := by
  intro t ht
  rw [splitWs] at ht
  obtain ⟨l, hl, rfl⟩ := List.mem_map.mp ht
  obtain ⟨hne, hws⟩ := splitWsAux_props s.data [] (by simp) l hl
  constructor
  · intro h
    exact hne (congrArg String.data h)
  · exact hws

/-! ### C4 and C7 -/

theorem except_error_bind {α β : Type} (e : PyErr) (f : α → Except PyErr β) :
    (Except.error e >>= f) = .error e := rfl

theorem except_ok_bind {α β : Type} (a : α) (f : α → Except PyErr β) :
    (Except.ok a >>= f) = f a := rfl

theorem parseToken_nostar (base : String × String) (p : String)
    (h : hasChar '*' p = false) :
    parseToken base p = match parseNum p with
      | some v => .ok (v, base.1,
          if 1 < p.length then
            ["Warning: expected unit but none found in:" ++ p] else [])
      | none => .error (.valueError p) := by
  simp [parseToken, h]

theorem parse_tokens_units (base : String × String) :
    ∀ (ts : List String) (r : List ℚ × List String × List String),
    (∀ t ∈ ts, hasChar '*' t = false) →
    parse_gemc_tokens base ts = .ok r →
    r.2.1 = List.replicate r.1.length base.1 := by
  intro ts
  induction ts with
  | nil =>
      intro r _ h
      rw [parse_gemc_tokens] at h
      cases h
      rfl
  | cons p rest ih =>
      intro r hstar h
      rw [parse_gemc_tokens,
        parseToken_nostar base p (hstar p (List.mem_cons_self p rest))] at h
      cases hv : parseNum p with
      | none =>
          rw [hv] at h
          replace h : (Except.error (PyErr.valueError p) :
              Except PyErr (List ℚ × List String × List String)) = Except.ok r := h
          exact absurd h (by simp)
      | some v =>
          rw [hv] at h
          cases hr : parse_gemc_tokens base rest with
          | error e =>
              rw [hr] at h
              replace h : (Except.error e :
                  Except PyErr (List ℚ × List String × List String)) = Except.ok r := h
              exact absurd h (by simp)
          | ok rr =>
              obtain ⟨vs, us, ws⟩ := rr
              rw [hr] at h
              replace h : Except.ok (v :: vs, base.1 :: us,
                  (if 1 < p.length then
                    ["Warning: expected unit but none found in:" ++ p] else []) ++ ws)
                  = Except.ok r := h
              have hr2 := ih (vs, us, ws)
                (fun t ht => hstar t (List.mem_cons_of_mem p ht)) hr
              cases h
              simpa [List.replicate_succ] using hr2

/-- C4 (amended): every token without a `*` separator is given the base
*length* unit `base_unit[0]` — for position and dimension strings, but
also for (multi-token) rotation strings, which the claim said should get
the base angle unit. -/
theorem C4_unitless_tokens_get_length_unit (base : String × String) (s : String)
    (hstar : ∀ t ∈ splitWs s, hasChar '*' t = false) :
    (∀ r, parse_gemc_str base s = .ok r →
      r.2.1 = List.replicate r.1.length base.1) ∧
    (∀ r, (splitWs s).length ≠ 1 → parse_gemc_rot_str base s = .ok r →
      r.2.1 = List.replicate r.1.length base.1) := by
  constructor
  · intro r h
    exact parse_tokens_units base _ r hstar h
  · intro r hlen h
    rw [parse_gemc_rot_str] at h
    split at h
    · exact absurd h (by simp)
    · next t0 rest hs =>
        split at h
        · next hord =>
            split at h
            · exact absurd h (by simp)
            · next restg ordTok rest2 =>
                clear restg
                cases hin : parse_gemc_str base (joinSpace rest2) with
                | error e =>
                    rw [hin] at h
                    replace h : (Except.error e :
                        Except PyErr (List ℚ × List String × String × List String))
                        = Except.ok r := h
                    exact absurd h (by simp)
                | ok rr =>
                    obtain ⟨vs, us, ws⟩ := rr
                    rw [hin] at h
                    replace h : Except.ok (vs, us, ordTok, ws) = Except.ok r := h
                    have hjs : splitWs (joinSpace rest2) = rest2 := by
                      refine splitWs_joinSpace rest2 (fun t ht => ?_)
                      exact splitWs_mem_props s t
                        (by rw [hs]; exact List.mem_cons_of_mem _ (List.mem_cons_of_mem _ ht))
                    have hstar2 : ∀ t ∈ splitWs (joinSpace rest2), hasChar '*' t = false := by
                      rw [hjs]
                      intro t ht
                      exact hstar t
                        (by rw [hs]; exact List.mem_cons_of_mem _ (List.mem_cons_of_mem _ ht))
                    have hu := parse_tokens_units base _ (vs, us, ws) hstar2 hin
                    cases h
                    simpa using hu
        · next hord =>
            split at h
            · next hrest =>
                subst hrest
                rw [hs] at hlen
                simp at hlen
            · next hrest =>
                cases hin : parse_gemc_str base s with
                | error e =>
                    rw [hin] at h
                    replace h : (Except.error e :
                        Except PyErr (List ℚ × List String × String × List String))
                        = Except.ok r := h
                    exact absurd h (by simp)
                | ok rr =>
                    obtain ⟨vs, us, ws⟩ := rr
                    rw [hin] at h
                    replace h : Except.ok (vs, us, "", ws) = Except.ok r := h
                    have hu := parse_tokens_units base _ (vs, us, ws) hstar hin
                    cases h
                    simpa using hu

theorem C4_unitless_tokens_get_length_unit_witness :
    (∀ t ∈ splitWs "0 0 0", hasChar '*' t = false) ∧
    (([("cm" : String), "cm", "cm"]) =
      List.replicate ([(0 : ℚ), 0, 0]).length baseUnits.1) :=
  ⟨by decide,
   (C4_unitless_tokens_get_length_unit baseUnits "0 0 0" (by decide)).1
     ([0, 0, 0], ["cm", "cm", "cm"], []) (by decide)⟩

/-- C4 counterexample: a rotation string of three unitless tokens gets the
base *length* unit `"cm"` on every component, not the base angle unit
`"rad"` the claim requires. -/
theorem C4_counterexample :
    parse_gemc_rot_str baseUnits "0 0 0" =
      .ok ([0, 0, 0], ["cm", "cm", "cm"], "", []) ∧
    (["cm", "cm", "cm"] : List String) ≠
      [baseUnits.2, baseUnits.2, baseUnits.2] := by
  constructor
  · decide
  · decide

/-- C7 (amended): a rotation field consisting of exactly one token (other
than an `ordered:` marker) is always tolerated: whatever the token is, the
rotation becomes `[0,0,0]` with the base angle unit, a diagnostic is
printed, plus one extra complaint when the token is not `"0"` — but no
error is raised for any token. -/
theorem C7_single_token_rotation_tolerated (base : String × String) (s t : String)
    (h1 : splitWs s = [t]) (h2 : strip t ≠ "ordered:") :
    parse_gemc_rot_str base s =
      .ok ([0, 0, 0], [base.2, base.2, base.2], "",
        ("Warning: Rotation with only one entry: " ++ t) ::
          (if t = "0" then []
           else ["But I don't know what to do with it! Setting rotation to zero."])) := by
  rw [parse_gemc_rot_str, h1]
  show (if strip t = "ordered:" then Except.error PyErr.indexError
    else Except.ok ([0, 0, 0], [base.2, base.2, base.2], "",
      ("Warning: Rotation with only one entry: " ++ t) ::
        (if t = "0" then []
         else ["But I don't know what to do with it! Setting rotation to zero."]))) = _
  rw [if_neg h2]

theorem C7_single_token_rotation_tolerated_witness :
    splitWs "5" = ["5"] ∧ strip "5" ≠ "ordered:" ∧
    parse_gemc_rot_str baseUnits "5" =
      .ok ([0, 0, 0], [baseUnits.2, baseUnits.2, baseUnits.2], "",
        ("Warning: Rotation with only one entry: " ++ "5") ::
          (if ("5" : String) = "0" then []
           else ["But I don't know what to do with it! Setting rotation to zero."])) :=
  ⟨by decide, by decide,
   C7_single_token_rotation_tolerated baseUnits "5" "5" (by decide) (by decide)⟩

/-- C7 counterexample: the single non-`"0"` token `"5"` does *not* make
the parse an error — it returns successfully with a zero rotation (and
diagnostics), refuting "any other single-token rotation is an error". -/
theorem C7_counterexample :
    parse_gemc_rot_str baseUnits "5" =
      .ok ([0, 0, 0], ["rad", "rad", "rad"], "",
        ["Warning: Rotation with only one entry: 5",
         "But I don't know what to do with it! Setting rotation to zero."]) ∧
    exceptOk (parse_gemc_rot_str baseUnits "5") = true := by
  constructor
  · decide
  · decide

theorem head?_filter {α : Type} (p : α → Bool) :
    ∀ l : List α, (l.filter p).head? = l.find? p := by
  intro l
  induction l with
  | nil => rfl
  | cons x xs ih =>
      by_cases h : p x
      · simp [List.filter_cons, List.find?_cons, h]
      · simp only [List.filter_cons, List.find?_cons]
        rw [if_neg (by simpa using h)]
        simp only [Bool.not_eq_true] at h
        rw [h]
        exact ih

/-- C8 (amended): `find_children` returns `None` when no record has the
given mother (not an empty list), and otherwise `Some` of exactly the
matching records, in insertion order (a sublist of the store). -/
theorem C8_find_children_characterization (gl : List GRec) (nm : String) :
    ((∀ g ∈ gl, g.mother ≠ nm) → find_children gl nm = none) ∧
    (∀ l, find_children gl nm = some l →
      l.Sublist gl ∧ l ≠ [] ∧ (∀ g ∈ l, g.mother = nm) ∧
      (∀ g ∈ gl, g.mother = nm → g ∈ l)) := by
  constructor
  · intro h
    rw [find_children]
    have : gl.filter (fun x => x.mother == nm) = [] := by
      rw [List.filter_eq_nil_iff]
      intro a ha
      simpa using h a ha
    simp [this]
  · intro l hl
    rw [find_children] at hl
    split at hl
    · exact absurd hl (by simp)
    · next hne =>
        cases hl
        refine ⟨List.filter_sublist gl, hne, ?_, ?_⟩
        · intro g hg
          simpa using (List.mem_filter.mp hg).2
        · intro g hg hm
          exact List.mem_filter.mpr ⟨hg, by simpa using hm⟩

theorem C8_find_children_characterization_witness :
    find_children [orphanRec] "root" = none :=
  (C8_find_children_characterization [orphanRec] "root").1 (by decide)

/-- C8 counterexample: on a store with no children of `"root"` the lookup
returns Python `None`, not the empty list the claim requires. -/
theorem C8_counterexample :
    find_children ([] : List GRec) "root" = none ∧
    (none : Option (List GRec)) ≠ some [] := by
  constructor
  · decide
  · decide

/-- C9: `find_volume` returns the earliest-inserted record with the given
name (`List.find?` over the store), `None` exactly when no record has the
name, and warns exactly when the name is duplicated. -/
theorem C9_find_volume_first_match (gl : List GRec) (nm : String) :
    (find_volume gl nm).1 = gl.find? (fun x => x.name == nm) ∧
    ((find_volume gl nm).1 = none ↔ ∀ g ∈ gl, g.name ≠ nm) ∧
    ((find_volume gl nm).2 = true ↔
      1 < (gl.filter (fun x => x.name == nm)).length) := by
  have h1 : (find_volume gl nm).1 = (gl.filter (fun x => x.name == nm)).head? := by
    rw [find_volume]
    cases gl.filter (fun x => x.name == nm) with
    | nil => rfl
    | cons f fs => rfl
  refine ⟨h1.trans (head?_filter _ gl), ?_, ?_⟩
  · rw [h1]
    cases hf : gl.filter (fun x => x.name == nm) with
    | nil =>
        simp only [List.head?_nil, true_iff]
        intro g hg hn
        have : g ∈ gl.filter (fun x => x.name == nm) :=
          List.mem_filter.mpr ⟨hg, by simpa using hn⟩
        rw [hf] at this
        exact absurd this (by simp)
    | cons f fs =>
        constructor
        · intro h
          exact absurd h (by simp)
        · intro hall
          exfalso
          have : f ∈ gl.filter (fun x => x.name == nm) := by rw [hf]; simp
          have hm := List.mem_filter.mp this
          exact hall f hm.1 (by simpa using hm.2)
  · rw [find_volume]
    cases hf : gl.filter (fun x => x.name == nm) with
    | nil => simp
    | cons f fs =>
        simp only [List.length_cons]
        constructor
        · intro hb
          have : fs ≠ [] := by simpa using hb
          have : 0 < fs.length := List.length_pos.mpr this
          omega
        · intro hlen
          have : fs ≠ [] := by
            intro hnil
            rw [hnil] at hlen
            simp at hlen
          simpa using this

theorem C9_find_volume_first_match_witness :
    (find_volume [boxRec, orphanRec, boxRec] "Box1").1 =
      List.find? (fun x => x.name == "Box1") [boxRec, orphanRec, boxRec] :=
  (C9_find_volume_first_match [boxRec, orphanRec, boxRec] "Box1").1

/-- C10: integer indexing on the engine — in-range indices return the
record, indices below `0` or above `len` return the message string, and
the single uncaught index `i = len` raises `IndexError`. -/
theorem C10_getitem_int_cases (gl : List GRec) (i : ℤ) :
    (0 ≤ i ∧ i < (gl.length : ℤ) →
      ∃ g, gl.get? i.toNat = some g ∧ engine_getitem_int gl i = .geom g) ∧
    (i < 0 ∨ (gl.length : ℤ) < i →
      engine_getitem_int gl i =
        .msg ("Geometry Object out of bounds for index" ++ intStr i)) ∧
    (i = (gl.length : ℤ) → engine_getitem_int gl i = .raised) := by
  refine ⟨?_, ?_, ?_⟩
  · rintro ⟨h0, hn⟩
    have hlt : i.toNat < gl.length := by omega
    refine ⟨gl.get ⟨i.toNat, hlt⟩, List.get?_eq_get hlt, ?_⟩
    rw [engine_getitem_int, if_neg (by omega), List.get?_eq_get hlt]
  · intro h
    rw [engine_getitem_int, if_pos h]
  · intro h
    subst h
    rw [engine_getitem_int, if_neg (by omega)]
    have : gl.get? ((gl.length : ℤ)).toNat = none := by
      rw [List.get?_eq_none]
      omega
    rw [this]

theorem C10_getitem_int_cases_witness :
    engine_getitem_int [boxRec] 1 = .raised :=
  (C10_getitem_int_cases [boxRec] 1).2.2 (by decide)

/-! ### Lemmas about `strip` and splitting, used for the C5 round trip -/

theorem dropWhile_no_ws (m : List Char) (h : ∀ c ∈ m, isWs c = false) :
    m.dropWhile isWs = m := by
  cases m with
  | nil => rfl
  | cons x xs =>
      rw [List.dropWhile_cons, if_neg]
      simp [h x (List.mem_cons_self x xs)]

theorem stripL_no_ws (l : List Char) (h : ∀ c ∈ l, isWs c = false) :
    stripL l = l := by
  rw [stripL, dropWhile_no_ws l h,
    dropWhile_no_ws l.reverse (fun c hc => h c (List.mem_reverse.mp hc)),
    List.reverse_reverse]

theorem stripL_cons_ws {c : Char} (h : isWs c = true) (l : List Char) :
    stripL (c :: l) = stripL l := by
  simp [stripL, List.dropWhile_cons, h]

theorem stripL_append_ws {c : Char} (h : isWs c = true) (l : List Char) :
    stripL (l ++ [c]) = stripL l := by
  rw [stripL, stripL, List.dropWhile_append]
  by_cases hl : (l.dropWhile isWs).isEmpty
  · rw [if_pos hl]
    have h1 : List.dropWhile isWs [c] = [] := by simp [List.dropWhile_cons, h]
    have h2 : l.dropWhile isWs = [] := by simpa using hl
    rw [h1, h2]
  · rw [if_neg hl, List.reverse_append]
    show ((List.reverse [c] ++ _).dropWhile isWs).reverse = _
    rw [show List.reverse [c] ++ (l.dropWhile isWs).reverse
        = c :: (l.dropWhile isWs).reverse from rfl]
    rw [List.dropWhile_cons, if_pos (by simpa using h)]

theorem strip_no_ws (s : String) (h : ∀ c ∈ s.data, isWs c = false) :
    strip s = s :=
  String.ext (stripL_no_ws s.data h)

theorem strip_space_left (s : String) : strip (" " ++ s) = strip s :=
  String.ext (stripL_cons_ws (c := ' ') (by decide) s.data)

theorem strip_space_right (s : String) : strip (s ++ " ") = strip s :=
  String.ext (stripL_append_ws (c := ' ') (by decide) s.data)

theorem splitWsAux_ws_all : ∀ (t acc : List Char), (∀ c ∈ t, isWs c = true) →
    splitWsAux t acc = if acc = [] then [] else [acc.reverse] := by
  intro t
  induction t with
  | nil => intro acc _; rfl
  | cons c t ih =>
      intro acc h
      rw [splitWsAux, if_pos (h c (List.mem_cons_self c t))]
      have ht := ih [] (fun x hx => h x (List.mem_cons_of_mem c hx))
      by_cases hacc : acc = []
      · rw [if_pos hacc, ih [] (fun x hx => h x (List.mem_cons_of_mem c hx)), if_pos hacc]
        rfl
      · rw [if_neg hacc, ih [] (fun x hx => h x (List.mem_cons_of_mem c hx)), if_neg hacc]
        rfl

theorem splitWsAux_append_ws_suffix :
    ∀ (l t acc : List Char), (∀ c ∈ t, isWs c = true) →
    splitWsAux (l ++ t) acc = splitWsAux l acc := by
  intro l
  induction l with
  | nil =>
      intro t acc h
      rw [List.nil_append, splitWsAux_ws_all t acc h, splitWsAux]
  | cons c l ih =>
      intro t acc h
      rw [List.cons_append, splitWsAux, splitWsAux]
      by_cases hc : isWs c
      · rw [if_pos hc, if_pos hc]
        by_cases hacc : acc = []
        · rw [if_pos hacc, if_pos hacc, ih t [] h]
        · rw [if_neg hacc, if_neg hacc, ih t [] h]
      · rw [if_neg hc, if_neg hc, ih t (c :: acc) h]

theorem splitWsAux_dropWhile_prefix : ∀ l : List Char,
    splitWsAux (l.dropWhile isWs) [] = splitWsAux l [] := by
  intro l
  induction l with
  | nil => rfl
  | cons c l ih =>
      rw [List.dropWhile_cons]
      by_cases hc : isWs c
      · rw [if_pos hc, splitWsAux, if_pos hc, if_pos rfl]
        exact ih
      · rw [if_neg hc]

theorem splitWsL_stripL (l : List Char) : splitWsL (stripL l) = splitWsL l := by
  have h1 : splitWsAux (l.dropWhile isWs) [] = splitWsAux l [] :=
    splitWsAux_dropWhile_prefix l
  have hdecomp : l.dropWhile isWs
      = stripL l ++ ((l.dropWhile isWs).reverse.takeWhile isWs).reverse := by
    conv_lhs => rw [← List.reverse_reverse (l.dropWhile isWs),
      ← List.takeWhile_append_dropWhile (p := isWs) (l := (l.dropWhile isWs).reverse)]
    rw [List.reverse_append]
    rfl
  rw [splitWsL, splitWsL, ← h1, hdecomp,
    splitWsAux_append_ws_suffix _ _ _
      (fun c hc => List.mem_takeWhile_imp (List.mem_reverse.mp hc))]

theorem splitWs_strip (s : String) : splitWs (strip s) = splitWs s := by
  rw [splitWs, splitWs, strip]
  rw [show (String.mk (stripL s.data)).data = stripL s.data from rfl, splitWsL_stripL]

theorem splitWs_space_right (s : String) : splitWs (s ++ " ") = splitWs s := by
  rw [splitWs, splitWs, data_append]
  rw [show (" " : String).data = [' '] from rfl]
  rw [splitWsL, splitWsL, splitWsAux_append_ws_suffix s.data [' '] [] (by simp [isWs])]

theorem splitOnCharL_ne_nil {c : Char} : ∀ l : List Char, splitOnCharL c l ≠ [] := by
  intro l
  cases l with
  | nil => simp [splitOnCharL]
  | cons x xs =>
      rw [splitOnCharL]
      by_cases hx : x = c
      · simp [hx]
      · rw [if_neg hx]
        cases h : splitOnCharL c xs with
        | nil => exact absurd h (splitOnCharL_ne_nil xs)
        | cons t ts => simp

theorem splitOnCharL_append {c : Char} : ∀ (a b : List Char),
    a.contains c = false →
    splitOnCharL c (a ++ c :: b) = a :: splitOnCharL c b := by
  intro a
  induction a with
  | nil =>
      intro b _
      rw [List.nil_append, splitOnCharL, if_pos rfl]
  | cons x a ih =>
      intro b h
      simp only [List.contains_cons, Bool.or_eq_false_iff, beq_eq_false_iff_ne] at h
      rw [List.cons_append, splitOnCharL, if_neg (Ne.symm h.1), ih b h.2]

/-! ### Character classes of the printed numbers -/

theorem contains_true_of_mem {c : Char} {l : List Char} (h : c ∈ l) :
    l.contains c = true := by
  induction l with
  | nil => simp at h
  | cons x xs ih =>
      rw [List.contains_cons]
      rcases List.mem_cons.mp h with rfl | h
      · simp
      · rw [ih h]
        simp

theorem contains_eq_false_of_all {c : Char} {l : List Char}
    (h : ∀ x ∈ l, x ≠ c) : l.contains c = false := by
  induction l with
  | nil => rfl
  | cons x xs ih =>
      rw [List.contains_cons]
      simp only [Bool.or_eq_false_iff, beq_eq_false_iff_ne]
      exact ⟨Ne.symm (h x (List.mem_cons_self x xs)),
        ih (fun y hy => h y (List.mem_cons_of_mem x hy))⟩

theorem intStr_chars (z : ℤ) : ∀ c ∈ (intStr z).data,
    c = '-' ∨ ∃ d, d < 10 ∧ c = digitChar d := by
  intro c hc
  rw [intStr] at hc
  split at hc
  · rcases List.mem_append.mp hc with h | h
    · left
      simpa using h
    · right
      obtain ⟨d, hd, rfl⟩ := natStr_all_digits z.natAbs c h
      exact ⟨d, hd, rfl⟩
  · right
    obtain ⟨d, hd, rfl⟩ := natStr_all_digits z.natAbs c hc
    exact ⟨d, hd, rfl⟩

theorem numStr_chars (q : ℚ) : ∀ c ∈ (numStr q).data,
    c = '-' ∨ c = '.' ∨ ∃ d, d < 10 ∧ c = digitChar d := by
  intro c hc
  rw [numStr] at hc
  split at hc
  · rcases intStr_chars q.num c hc with h | h
    · exact Or.inl h
    · exact Or.inr (Or.inr h)
  · rcases List.mem_append.mp hc with h | h
    · rcases List.mem_append.mp h with h1 | h1
      · rcases intStr_chars q.num c h1 with h2 | h2
        · exact Or.inl h2
        · exact Or.inr (Or.inr h2)
      · exact Or.inr (Or.inl (by simpa using h1))
    · obtain ⟨d, hd, rfl⟩ := natStr_all_digits q.den c h
      exact Or.inr (Or.inr ⟨d, hd, rfl⟩)

theorem digitChar_cases (d : ℕ) :
    isWs (digitChar d) = false ∧ digitChar d ≠ '*' ∧ digitChar d ≠ '|' := by
  unfold digitChar
  split <;> refine ⟨by decide, by decide, by decide⟩

theorem numStr_no_ws (q : ℚ) : ∀ c ∈ (numStr q).data, isWs c = false := by
  intro c hc
  rcases numStr_chars q c hc with rfl | rfl | ⟨d, _, rfl⟩
  · decide
  · decide
  · exact (digitChar_cases d).1

theorem numStr_no_star (q : ℚ) : (numStr q).data.contains '*' = false := by
  refine contains_eq_false_of_all (fun c hc => ?_)
  rcases numStr_chars q c hc with rfl | rfl | ⟨d, _, rfl⟩
  · decide
  · decide
  · exact (digitChar_cases d).2.1

theorem numStr_no_bar (q : ℚ) : (numStr q).data.contains '|' = false := by
  refine contains_eq_false_of_all (fun c hc => ?_)
  rcases numStr_chars q c hc with rfl | rfl | ⟨d, _, rfl⟩
  · decide
  · decide
  · exact (digitChar_cases d).2.2

theorem intStr_no_ws (z : ℤ) : ∀ c ∈ (intStr z).data, isWs c = false := by
  intro c hc
  rcases intStr_chars z c hc with rfl | ⟨d, _, rfl⟩
  · decide
  · exact (digitChar_cases d).1

theorem intStr_no_bar (z : ℤ) : (intStr z).data.contains '|' = false := by
  refine contains_eq_false_of_all (fun c hc => ?_)
  rcases intStr_chars z c hc with rfl | ⟨d, _, rfl⟩
  · decide
  · exact (digitChar_cases d).2.2

theorem natStr_ne_empty (n : ℕ) : natStr n ≠ "" := by
  intro h
  by_cases h0 : n = 0
  · subst h0
    exact absurd h (by decide)
  · have : (natStr n).data = [] := congrArg String.data h
    rw [natStr, if_neg h0] at this
    have h2 : (natDigits n).reverse.map digitChar = [] := this
    have := natDigits_ne_nil h0
    simp at h2
    exact this h2

theorem numStr_ne_empty (q : ℚ) : numStr q ≠ "" := by
  intro h
  have hd : (numStr q).data = [] := congrArg String.data h
  rw [numStr] at hd
  split at hd
  · rw [intStr] at hd
    split at hd
    · simp [data_append] at hd
    · exact natStr_ne_empty q.num.natAbs (String.ext hd)
  · simp only [data_append, List.append_eq_nil] at hd
    exact natStr_ne_empty q.den (String.ext hd.2)

theorem make_string_many (item : List ℚ) (us : List String)
    (h : us.length = item.length) :
    make_string item (.many us) = .ok (tokcat (item.zip us)) := by
  show (if us.length = item.length then _ else _) = _
  rw [if_pos h]
  rfl

theorem token_no_ws (v : ℚ) (u : String) (hu : ∀ c ∈ u.data, isWs c = false) :
    ∀ c ∈ (numStr v ++ "*" ++ u).data, isWs c = false := by
  intro c hc
  rw [data_append, data_append] at hc
  rcases List.mem_append.mp hc with h | h
  · rcases List.mem_append.mp h with h1 | h1
    · exact numStr_no_ws v c h1
    · have : c = '*' := by simpa using h1
      subst this
      decide
  · exact hu c h

theorem token_ne_empty (v : ℚ) (u : String) : numStr v ++ "*" ++ u ≠ "" := by
  intro h
  have hd : (numStr v ++ "*" ++ u).data = [] := congrArg String.data h
  rw [data_append, data_append] at hd
  simp only [List.append_eq_nil] at hd
  exact absurd hd.1.2 (by decide)

theorem token_data (v : ℚ) (u : String) :
    (numStr v ++ "*" ++ u).data = (numStr v).data ++ '*' :: u.data := by
  rw [data_append, data_append]
  rw [show ("*" : String).data = ['*'] from rfl]
  simp

theorem parseToken_token (base : String × String) (v : ℚ) (u : String)
    (hstar : u.data.contains '*' = false)
    (hnum : parseNum (numStr v) = some v) :
    parseToken base (numStr v ++ "*" ++ u) = .ok (v, u, []) := by
  have hhas : hasChar '*' (numStr v ++ "*" ++ u) = true := by
    rw [hasChar, token_data]
    exact contains_true_of_mem (by simp)
  rw [parseToken, hhas]
  simp only [Bool.true_eq_false, if_false]
  have hsplit : splitOnChar '*' (numStr v ++ "*" ++ u) = [numStr v, u] := by
    rw [splitOnChar, token_data, splitOnCharL_append _ _ (numStr_no_star v),
      splitOnCharL_single hstar]
    simp [string_mk_data]
  rw [hsplit]
  show (match parseNum (numStr v) with
    | some w => Except.ok (w, u, ([] : List String))
    | none => (Except.error (PyErr.valueError (numStr v)) :
        Except PyErr (ℚ × String × List String))) = _
  rw [hnum]

theorem splitWs_tokcat : ∀ l : List (ℚ × String),
    (∀ p ∈ l, ∀ c ∈ p.2.data, isWs c = false) →
    splitWs (tokcat l) = l.map (fun p => numStr p.1 ++ "*" ++ p.2) := by
  intro l
  induction l with
  | nil => intro _; rfl
  | cons p ps ih =>
      intro h
      rw [show tokcat (p :: ps)
          = (numStr p.1 ++ "*" ++ p.2) ++ " " ++ tokcat ps from rfl]
      rw [splitWs_cons_token _ _
        (token_no_ws p.1 p.2 (h p (List.mem_cons_self p ps)))
        (token_ne_empty p.1 p.2)]
      rw [ih (fun q hq => h q (List.mem_cons_of_mem p hq))]
      rfl

theorem parse_gemc_tokens_tokens (base : String × String) :
    ∀ l : List (ℚ × String),
    (∀ p ∈ l, p.2.data.contains '*' = false) →
    (∀ p ∈ l, parseNum (numStr p.1) = some p.1) →
    parse_gemc_tokens base (l.map (fun p => numStr p.1 ++ "*" ++ p.2))
      = .ok (l.map Prod.fst, l.map Prod.snd, []) := by
  intro l
  induction l with
  | nil => intro _ _; rfl
  | cons p ps ih =>
      intro hstar hnum
      rw [List.map_cons, parse_gemc_tokens,
        parseToken_token base p.1 p.2 (hstar p (List.mem_cons_self p ps))
          (hnum p (List.mem_cons_self p ps)),
        except_ok_bind,
        ih (fun q hq => hstar q (List.mem_cons_of_mem p hq))
           (fun q hq => hnum q (List.mem_cons_of_mem p hq))]
      rfl

theorem parse_gemc_str_of_tokens (base : String × String) (s : String)
    (l : List (ℚ × String))
    (hsp : splitWs s = l.map (fun p => numStr p.1 ++ "*" ++ p.2))
    (hstar : ∀ p ∈ l, p.2.data.contains '*' = false)
    (hnum : ∀ p ∈ l, parseNum (numStr p.1) = some p.1) :
    parse_gemc_str base s = .ok (l.map Prod.fst, l.map Prod.snd, []) := by
  rw [parse_gemc_str, hsp, parse_gemc_tokens_tokens base l hstar hnum]

theorem parseIntE_intStr (z : ℤ) : parseIntE (intStr z) = .ok z := by
  rw [parseIntE, parseInt_intStr]

theorem all_of_contains_eq_false {c : Char} {l : List Char}
    (h : l.contains c = false) : ∀ x ∈ l, x ≠ c := by
  intro x hx heq
  subst heq
  rw [contains_true_of_mem hx] at h
  exact absurd h (by simp)

theorem mapStrip_space (s : String) :
    (splitOnChar '|' (" " ++ s)).map strip = (splitOnChar '|' s).map strip := by
  rw [splitOnChar, splitOnChar]
  rw [show (" " ++ s).data = ' ' :: s.data from rfl, splitOnCharL,
    if_neg (by decide)]
  cases h : splitOnCharL '|' s.data with
  | nil => exact absurd h (splitOnCharL_ne_nil _)
  | cons t ts =>
      show (((' ' :: t) :: ts).map String.mk).map strip
        = ((t :: ts).map String.mk).map strip
      simp only [List.map_cons]
      congr 1

theorem stripChunks : ∀ fs : List String, fs ≠ [] →
    (∀ f ∈ fs, f.data.contains '|' = false) →
    (splitOnChar '|' (interBar fs)).map strip = fs.map strip := by
  intro fs
  induction fs with
  | nil => intro h; exact absurd rfl h
  | cons x xs ih =>
      intro _ hbar
      match xs, ih with
      | [], _ =>
          rw [show interBar [x] = x ++ " " from rfl, splitOnChar]
          have hx : (x ++ " ").data = x.data ++ [' '] := rfl
          have hc : (x.data ++ [' ']).contains '|' = false := by
            refine contains_eq_false_of_all (fun y hy => ?_)
            rcases List.mem_append.mp hy with h1 | h1
            · exact all_of_contains_eq_false (hbar x (by simp)) y h1
            · simp only [List.mem_singleton] at h1
              subst h1
              decide
          rw [hx, splitOnCharL_single hc]
          show [strip (String.mk (x.data ++ [' ']))] = [strip x]
          have : String.mk (x.data ++ [' ']) = x ++ " " := rfl
          rw [this, strip_space_right]
      | y :: ys, ih =>
          rw [show interBar (x :: y :: ys) = x ++ " | " ++ interBar (y :: ys) from rfl,
            splitOnChar]
          have hd : (x ++ " | " ++ interBar (y :: ys)).data
              = (x.data ++ [' ']) ++ '|' :: (" " ++ interBar (y :: ys)).data := by
            rw [data_append, data_append]
            rw [show (" | " : String).data = [' ', '|', ' '] from rfl,
              show (" " ++ interBar (y :: ys)).data
                = ' ' :: (interBar (y :: ys)).data from rfl]
            try simp
          have hc : (x.data ++ [' ']).contains '|' = false := by
            refine contains_eq_false_of_all (fun z hz => ?_)
            rcases List.mem_append.mp hz with h1 | h1
            · exact all_of_contains_eq_false (hbar x (by simp)) z h1
            · simp only [List.mem_singleton] at h1
              subst h1
              decide
          rw [hd, splitOnCharL_append _ _ hc]
          simp only [List.map_cons]
          rw [show String.mk (x.data ++ [' ']) = x ++ " " from rfl]
          have htail : (splitOnCharL '|' (" " ++ interBar (y :: ys)).data).map
              (strip ∘ String.mk) = (y :: ys).map strip := by
            rw [← List.map_map]
            rw [show (splitOnCharL '|' (" " ++ interBar (y :: ys)).data).map String.mk
                = splitOnChar '|' (" " ++ interBar (y :: ys)) from rfl]
            exact (mapStrip_space (interBar (y :: ys))).trans
              (ih (by simp) (fun f hf => hbar f (List.mem_cons_of_mem x hf)))
          rw [strip_space_right, List.map_map, htail]
          rfl

/-! ### Rotation-field parses and the field-list evaluation -/

theorem token_ne_ordered (v : ℚ) (u : String)
    (hu : ∀ c ∈ u.data, isWs c = false) :
    strip (numStr v ++ "*" ++ u) ≠ "ordered:" := by
  intro h
  rw [strip_no_ws _ (token_no_ws v u hu)] at h
  have hd := congrArg String.data h
  rw [token_data] at hd
  have hmem : '*' ∈ ("ordered:" : String).data := by
    rw [← hd]
    simp
  simp at hmem

theorem parse_rot_multi (base : String × String) (s : String)
    (p q : ℚ × String) (rest : List (ℚ × String))
    (hsp : splitWs s = (p :: q :: rest).map (fun r => numStr r.1 ++ "*" ++ r.2))
    (hstar : ∀ r ∈ p :: q :: rest, r.2.data.contains '*' = false)
    (hws : ∀ r ∈ p :: q :: rest, ∀ c ∈ r.2.data, isWs c = false)
    (hnum : ∀ r ∈ p :: q :: rest, parseNum (numStr r.1) = some r.1) :
    parse_gemc_rot_str base s
      = .ok ((p :: q :: rest).map Prod.fst, (p :: q :: rest).map Prod.snd, "", []) := by
  rw [parse_gemc_rot_str, hsp, List.map_cons, List.map_cons]
  show (if strip (numStr p.1 ++ "*" ++ p.2) = "ordered:" then
      (match ((numStr q.1 ++ "*" ++ q.2) ::
          rest.map (fun r => numStr r.1 ++ "*" ++ r.2)) with
        | [] => (Except.error PyErr.indexError :
            Except PyErr (List ℚ × List String × String × List String))
        | ord :: rest2 => do
            let (vs, us, ws) ← parse_gemc_str base (joinSpace rest2)
            Except.ok (vs, us, ord, ws))
    else if ((numStr q.1 ++ "*" ++ q.2) ::
        rest.map (fun r => numStr r.1 ++ "*" ++ r.2)) = [] then
      Except.ok ([0, 0, 0], [base.2, base.2, base.2], "",
        ("Warning: Rotation with only one entry: " ++ (numStr p.1 ++ "*" ++ p.2)) ::
          (if (numStr p.1 ++ "*" ++ p.2) = "0" then []
           else ["But I don't know what to do with it! Setting rotation to zero."]))
    else do
      let (vs, us, ws) ← parse_gemc_str base s
      Except.ok (vs, us, "", ws)) = _
  rw [if_neg (token_ne_ordered p.1 p.2 (hws p (by simp)))]
  rw [if_neg (by simp)]
  rw [parse_gemc_str_of_tokens base s (p :: q :: rest) hsp hstar hnum, except_ok_bind]

theorem parse_rot_ordered (base : String × String) (s ord : String)
    (l : List (ℚ × String))
    (hsp : splitWs s = "ordered:" :: ord ::
      l.map (fun r => numStr r.1 ++ "*" ++ r.2))
    (hstar : ∀ r ∈ l, r.2.data.contains '*' = false)
    (hws : ∀ r ∈ l, ∀ c ∈ r.2.data, isWs c = false)
    (hnum : ∀ r ∈ l, parseNum (numStr r.1) = some r.1) :
    parse_gemc_rot_str base s
      = .ok (l.map Prod.fst, l.map Prod.snd, ord, []) := by
  rw [parse_gemc_rot_str, hsp]
  show (if strip "ordered:" = "ordered:" then
      (match (ord :: l.map (fun r => numStr r.1 ++ "*" ++ r.2)) with
        | [] => (Except.error PyErr.indexError :
            Except PyErr (List ℚ × List String × String × List String))
        | o :: rest2 => do
            let (vs, us, ws) ← parse_gemc_str base (joinSpace rest2)
            Except.ok (vs, us, o, ws))
    else if (ord :: l.map (fun r => numStr r.1 ++ "*" ++ r.2)) = [] then
      Except.ok ([0, 0, 0], [base.2, base.2, base.2], "",
        ("Warning: Rotation with only one entry: " ++ "ordered:") ::
          (if ("ordered:" : String) = "0" then []
           else ["But I don't know what to do with it! Setting rotation to zero."]))
    else do
      let (vs, us, ws) ← parse_gemc_str base s
      Except.ok (vs, us, "", ws)) = _
  rw [if_pos (by decide)]
  show (do
      let (vs, us, ws) ← parse_gemc_str base
        (joinSpace (l.map (fun r : ℚ × String => numStr r.1 ++ "*" ++ r.2)))
      Except.ok (vs, us, ord, ws)) = _
  have hjs : splitWs (joinSpace (l.map (fun r => numStr r.1 ++ "*" ++ r.2)))
      = l.map (fun r => numStr r.1 ++ "*" ++ r.2) := by
    refine splitWs_joinSpace _ (fun t ht => ?_)
    obtain ⟨r, hr, rfl⟩ := List.mem_map.mp ht
    exact ⟨token_ne_empty r.1 r.2, token_no_ws r.1 r.2 (hws r hr)⟩
  have hps : parse_gemc_str base
      (joinSpace (l.map (fun r => numStr r.1 ++ "*" ++ r.2)))
      = .ok (l.map Prod.fst, l.map Prod.snd, []) := by
    rw [parse_gemc_str, hjs, parse_gemc_tokens_tokens base l hstar hnum]
  rw [hps, except_ok_bind]

set_option maxHeartbeats 2000000 in
theorem txtParseFields_eval
    (nm mo de posS rotS co g4 dimS ma mg se hi idS : String)
    (nc pm ex vi st : ℤ)
    (pos : List ℚ) (pu : List String)
    (rot : List ℚ) (ru : List String) (ord : String)
    (dims : List ℚ) (du : List String)
    (hp : parse_gemc_str baseUnits posS = .ok (pos, pu, []))
    (hr : parse_gemc_rot_str baseUnits rotS = .ok (rot, ru, ord, []))
    (hd : parse_gemc_str baseUnits dimS = .ok (dims, du, [])) :
    txtParseFields [nm, mo, de, posS, rotS, co, g4, dimS, ma, mg,
      intStr nc, intStr pm, intStr ex, intStr vi, intStr st, se, hi, idS]
    = .ok (some
      { name := nm, mother := mo, description := de,
        pos := pos, pos_units := .many pu,
        rot := rot, rot_units := .many ru, rot_order := ord,
        col := co, g4type := g4,
        dimensions := dims, dims_units := .many du,
        material := ma, magfield := mg,
        ncopy := nc, pmany := pm, exist := ex, visible := vi, style := st,
        sensitivity := se, hittype := hi, identity := idS }) := by
  rw [txtParseFields]
  rw [if_neg (by norm_num)]
  show (do
    let pr ← parse_gemc_str baseUnits posS
    let rr ← parse_gemc_rot_str baseUnits rotS
    let dr ← parse_gemc_str baseUnits dimS
    let ncv ← parseIntE (intStr nc)
    let pmv ← parseIntE (intStr pm)
    let exv ← parseIntE (intStr ex)
    let viv ← parseIntE (intStr vi)
    let stv ← parseIntE (intStr st)
    (Except.ok (some
      ({ name := nm, mother := mo, description := de,
         pos := pr.1, pos_units := .many pr.2.1,
         rot := rr.1, rot_units := .many rr.2.1, rot_order := rr.2.2.1,
         col := co, g4type := g4,
         dimensions := dr.1, dims_units := .many dr.2.1,
         material := ma, magfield := mg,
         ncopy := ncv, pmany := pmv, exist := exv, visible := viv, style := stv,
         sensitivity := se, hittype := hi, identity := idS } : GRec)) :
      Except PyErr (Option GRec))) = _
  rw [hp, except_ok_bind, hr, except_ok_bind, hd, except_ok_bind,
    parseIntE_intStr nc, except_ok_bind, parseIntE_intStr pm, except_ok_bind,
    parseIntE_intStr ex, except_ok_bind, parseIntE_intStr vi, except_ok_bind,
    parseIntE_intStr st, except_ok_bind]

theorem cleanStr_strip {s : String} (h : cleanStr s = true) : strip s = s := by
  rw [cleanStr, Bool.and_eq_true] at h
  exact eq_of_beq h.2

theorem cleanStr_no_bar {s : String} (h : cleanStr s = true) :
    s.data.contains '|' = false := by
  rw [cleanStr, Bool.and_eq_true] at h
  simpa using h.1

theorem cleanUnit_star {u : String} (h : cleanUnit u = true) :
    u.data.contains '*' = false := by
  rw [cleanUnit, Bool.and_eq_true, Bool.and_eq_true] at h
  simpa using h.1.1

theorem cleanUnit_bar {u : String} (h : cleanUnit u = true) :
    u.data.contains '|' = false := by
  rw [cleanUnit, Bool.and_eq_true, Bool.and_eq_true] at h
  simpa using h.1.2

theorem cleanUnit_ws {u : String} (h : cleanUnit u = true) :
    ∀ c ∈ u.data, isWs c = false := by
  rw [cleanUnit, Bool.and_eq_true, Bool.and_eq_true] at h
  intro c hc
  have := (List.all_eq_true.mp h.2) c hc
  simpa using this

theorem cleanOrd_ne {s : String} (h : cleanOrd s = true) : s ≠ "" := by
  rw [cleanOrd, Bool.and_eq_true, Bool.and_eq_true] at h
  simpa using h.1.1

theorem cleanOrd_bar {s : String} (h : cleanOrd s = true) :
    s.data.contains '|' = false := by
  rw [cleanOrd, Bool.and_eq_true, Bool.and_eq_true] at h
  simpa using h.1.2

theorem cleanOrd_ws {s : String} (h : cleanOrd s = true) :
    ∀ c ∈ s.data, isWs c = false := by
  rw [cleanOrd, Bool.and_eq_true, Bool.and_eq_true] at h
  intro c hc
  have := (List.all_eq_true.mp h.2) c hc
  simpa using this

theorem unitsReady_many {vals : List ℚ} {us : UStr} (h : unitsReady vals us = true) :
    ∃ l, us = .many l ∧ l.length = vals.length ∧ ∀ u ∈ l, cleanUnit u = true := by
  cases us with
  | one u => exact absurd h (by simp [unitsReady])
  | many l =>
      rw [unitsReady, Bool.and_eq_true] at h
      exact ⟨l, rfl, by simpa using h.1,
        fun u hu => (List.all_eq_true.mp h.2) u hu⟩

theorem numsReady_all {vals : List ℚ} (h : numsReady vals = true) :
    ∀ v ∈ vals, parseNum (numStr v) = some v := by
  intro v hv
  have := (List.all_eq_true.mp h) v hv
  simpa using this

theorem list_len3 {α : Type} {l : List α} (h : l.length = 3) :
    ∃ a b c, l = [a, b, c] := by
  match l, h with
  | [a, b, c], _ => exact ⟨a, b, c, rfl⟩

set_option maxHeartbeats 800000 in
theorem geo_line_fields (g : GRec) (ps rs ds : String)
    (h1 : make_string g.pos g.pos_units = .ok ps)
    (h2 : make_string g.rot g.rot_units = .ok rs)
    (h3 : make_string g.dimensions g.dims_units = .ok ds) :
    geo_line g = .ok (interBar [g.name, g.mother, g.description, ps,
      (if g.rot_order ≠ "" then "ordered: " ++ g.rot_order ++ " " else "") ++ rs,
      g.col, g.g4type, ds, g.material, g.magfield,
      intStr g.ncopy, intStr g.pmany, intStr g.exist, intStr g.visible,
      intStr g.style, g.sensitivity, g.hittype, g.identity]) := by
  rw [geo_line, h1, except_ok_bind, h2, except_ok_bind, h3, except_ok_bind]
  refine congrArg Except.ok (String.ext ?_)
  simp only [interBar, data_append, List.append_assoc, List.cons_append,
    List.nil_append,
    show (" | " : String).data = [' ', '|', ' '] from rfl,
    show (" " : String).data = [' '] from rfl]

theorem empty_append_str (s : String) : "" ++ s = s :=
  String.ext (by simp [data_append])

theorem strip_intStr (z : ℤ) : strip (intStr z) = intStr z :=
  strip_no_ws _ (intStr_no_ws z)

theorem tokcat_no_bar : ∀ l : List (ℚ × String),
    (∀ p ∈ l, p.2.data.contains '|' = false) →
    (tokcat l).data.contains '|' = false := by
  intro l
  induction l with
  | nil => intro _; rfl
  | cons p ps ih =>
      intro h
      refine contains_eq_false_of_all (fun c hc => ?_)
      rw [show tokcat (p :: ps)
          = (numStr p.1 ++ "*" ++ p.2) ++ " " ++ tokcat ps from rfl] at hc
      rw [data_append, data_append, token_data,
        show (" " : String).data = [' '] from rfl] at hc
      rcases List.mem_append.mp hc with h1 | h1
      · rcases List.mem_append.mp h1 with h2 | h2
        · rcases List.mem_append.mp h2 with h3 | h3
          · exact all_of_contains_eq_false (numStr_no_bar p.1) c h3
          · rcases List.mem_cons.mp h3 with rfl | h4
            · decide
            · exact all_of_contains_eq_false (h p (List.mem_cons_self p ps)) c h4
        · simp only [List.mem_singleton] at h2
          subst h2
          decide
      · exact all_of_contains_eq_false
          (ih (fun q hq => h q (List.mem_cons_of_mem p hq))) c h1

theorem except_bind_ok {α β : Type} (a : α) (f : α → Except PyErr β) :
    (Except.ok a).bind f = f a := rfl

theorem rotField_no_bar (ord rs : String)
    (hord : ord.data.contains '|' = false)
    (hrs : rs.data.contains '|' = false) :
    ((if ord ≠ "" then "ordered: " ++ ord ++ " " else "") ++ rs).data.contains '|'
      = false := by
  refine contains_eq_false_of_all (fun c hc => ?_)
  rw [data_append] at hc
  rcases List.mem_append.mp hc with h1 | h1
  · split at h1
    · rw [data_append, data_append] at h1
      rcases List.mem_append.mp h1 with h2 | h2
      · rcases List.mem_append.mp h2 with h3 | h3
        · exact all_of_contains_eq_false (by decide) c h3
        · exact all_of_contains_eq_false hord c h3
      · exact all_of_contains_eq_false (by decide) c h2
    · simp at h1
  · exact all_of_contains_eq_false hrs c h1

set_option maxHeartbeats 3000000 in
/-- C5: a record whose text fields contain no `|` and survive stripping,
whose units are clean per-component lists of the right length, whose
rotation has three components, and whose numeric components survive the
print/parse round trip, is reproduced exactly by serializing with
`__str__` and re-reading the line with `txt_read_geometry`. -/
theorem C5_serialize_reparse_roundtrip (g : GRec) (h : roundTripReady g = true) :
    roundTrip g = .ok (some g) := by
  rw [roundTripReady] at h
  simp only [Bool.and_eq_true] at h
  obtain ⟨⟨⟨⟨⟨⟨⟨⟨⟨⟨⟨⟨⟨⟨⟨⟨⟨hnm, hmo⟩, hde⟩, hco⟩, hg4⟩, hma⟩, hmg⟩, hse⟩, hhi⟩,
    hid⟩, hup⟩, hur⟩, hud⟩, hord⟩, hlen3⟩, hnp⟩, hnr⟩, hnd⟩ := h
  obtain ⟨pu, hpuEq, hpuLen, hpuClean⟩ := unitsReady_many hup
  obtain ⟨ru, hruEq, hruLen, hruClean⟩ := unitsReady_many hur
  obtain ⟨du, hduEq, hduLen, hduClean⟩ := unitsReady_many hud
  have hlen3' : g.rot.length = 3 := by simpa using hlen3
  have hord2 : g.rot_order = "" ∨ cleanOrd g.rot_order = true := by
    rw [Bool.or_eq_true] at hord
    rcases hord with h1 | h1
    · exact Or.inl (eq_of_beq h1)
    · exact Or.inr h1
  have hob : g.rot_order.data.contains '|' = false := by
    rcases hord2 with h1 | h1
    · rw [h1]
      rfl
    · exact cleanOrd_bar h1
  have hm1 : make_string g.pos g.pos_units = .ok (tokcat (g.pos.zip pu)) := by
    rw [hpuEq]
    exact make_string_many _ _ hpuLen
  have hm2 : make_string g.rot g.rot_units = .ok (tokcat (g.rot.zip ru)) := by
    rw [hruEq]
    exact make_string_many _ _ hruLen
  have hm3 : make_string g.dimensions g.dims_units
      = .ok (tokcat (g.dimensions.zip du)) := by
    rw [hduEq]
    exact make_string_many _ _ hduLen
  -- zip-level facts for the three numeric fields
  have hwsP : ∀ p ∈ g.pos.zip pu, ∀ c ∈ p.2.data, isWs c = false := by
    intro p hp
    exact cleanUnit_ws (hpuClean p.2 (List.of_mem_zip hp).2)
  have hstarP : ∀ p ∈ g.pos.zip pu, p.2.data.contains '*' = false := by
    intro p hp
    exact cleanUnit_star (hpuClean p.2 (List.of_mem_zip hp).2)
  have hnumP : ∀ p ∈ g.pos.zip pu, parseNum (numStr p.1) = some p.1 := by
    intro p hp
    exact numsReady_all hnp p.1 (List.of_mem_zip hp).1
  have hwsR : ∀ p ∈ g.rot.zip ru, ∀ c ∈ p.2.data, isWs c = false := by
    intro p hp
    exact cleanUnit_ws (hruClean p.2 (List.of_mem_zip hp).2)
  have hstarR : ∀ p ∈ g.rot.zip ru, p.2.data.contains '*' = false := by
    intro p hp
    exact cleanUnit_star (hruClean p.2 (List.of_mem_zip hp).2)
  have hnumR : ∀ p ∈ g.rot.zip ru, parseNum (numStr p.1) = some p.1 := by
    intro p hp
    exact numsReady_all hnr p.1 (List.of_mem_zip hp).1
  have hwsD : ∀ p ∈ g.dimensions.zip du, ∀ c ∈ p.2.data, isWs c = false := by
    intro p hp
    exact cleanUnit_ws (hduClean p.2 (List.of_mem_zip hp).2)
  have hstarD : ∀ p ∈ g.dimensions.zip du, p.2.data.contains '*' = false := by
    intro p hp
    exact cleanUnit_star (hduClean p.2 (List.of_mem_zip hp).2)
  have hnumD : ∀ p ∈ g.dimensions.zip du, parseNum (numStr p.1) = some p.1 := by
    intro p hp
    exact numsReady_all hnd p.1 (List.of_mem_zip hp).1
  -- parses of the stripped numeric fields
  have hpParse : parse_gemc_str baseUnits (strip (tokcat (g.pos.zip pu)))
      = .ok (g.pos, pu, []) := by
    have h0 := parse_gemc_str_of_tokens baseUnits
      (strip (tokcat (g.pos.zip pu))) (g.pos.zip pu)
      ((splitWs_strip _).trans (splitWs_tokcat _ hwsP)) hstarP hnumP
    rwa [List.map_fst_zip g.pos pu hpuLen.ge,
      List.map_snd_zip g.pos pu hpuLen.le] at h0
  have hdParse : parse_gemc_str baseUnits (strip (tokcat (g.dimensions.zip du)))
      = .ok (g.dimensions, du, []) := by
    have h0 := parse_gemc_str_of_tokens baseUnits
      (strip (tokcat (g.dimensions.zip du))) (g.dimensions.zip du)
      ((splitWs_strip _).trans (splitWs_tokcat _ hwsD)) hstarD hnumD
    rwa [List.map_fst_zip g.dimensions du hduLen.ge,
      List.map_snd_zip g.dimensions du hduLen.le] at h0
  have hrParse : parse_gemc_rot_str baseUnits
      (strip ((if g.rot_order ≠ "" then "ordered: " ++ g.rot_order ++ " " else "")
        ++ tokcat (g.rot.zip ru)))
      = .ok (g.rot, ru, g.rot_order, []) := by
    by_cases hoe : g.rot_order = ""
    · rw [if_neg (not_not_intro hoe), empty_append_str]
      obtain ⟨r1, r2, r3, hr3⟩ := list_len3 hlen3'
      obtain ⟨u1, u2, u3, hu3⟩ := list_len3 (hruLen.trans hlen3')
      have hzip3 : g.rot.zip ru = [(r1, u1), (r2, u2), (r3, u3)] := by
        rw [hr3, hu3]
        rfl
      have h0 := parse_rot_multi baseUnits (strip (tokcat (g.rot.zip ru)))
        (r1, u1) (r2, u2) [(r3, u3)]
        (by
          rw [← hzip3]
          exact (splitWs_strip _).trans (splitWs_tokcat _ hwsR))
        (by
          rw [← hzip3]
          exact hstarR)
        (by
          rw [← hzip3]
          exact hwsR)
        (by
          rw [← hzip3]
          exact hnumR)
      rw [← hzip3, List.map_fst_zip g.rot ru hruLen.ge,
        List.map_snd_zip g.rot ru hruLen.le] at h0
      rw [h0, hoe]
    · rw [if_pos hoe]
      have hordClean : cleanOrd g.rot_order = true := by
        rcases hord2 with h1 | h1
        · exact absurd h1 hoe
        · exact h1
      have hre : ("ordered: " ++ g.rot_order ++ " ") ++ tokcat (g.rot.zip ru)
          = "ordered:" ++ " "
            ++ (g.rot_order ++ " " ++ tokcat (g.rot.zip ru)) := by
        refine String.ext ?_
        simp only [data_append, List.append_assoc]
        rfl
      have hsp : splitWs (strip (("ordered: " ++ g.rot_order ++ " ")
            ++ tokcat (g.rot.zip ru)))
          = "ordered:" :: g.rot_order ::
            (g.rot.zip ru).map (fun r => numStr r.1 ++ "*" ++ r.2) := by
        rw [splitWs_strip, hre,
          splitWs_cons_token "ordered:" _ (by decide) (by decide),
          splitWs_cons_token g.rot_order _ (cleanOrd_ws hordClean)
            (cleanOrd_ne hordClean),
          splitWs_tokcat _ hwsR]
      have h0 := parse_rot_ordered baseUnits _ g.rot_order (g.rot.zip ru)
        hsp hstarR hwsR hnumR
      rwa [List.map_fst_zip g.rot ru hruLen.ge,
        List.map_snd_zip g.rot ru hruLen.le] at h0
  -- assemble
  have hbarP : ∀ p ∈ g.pos.zip pu, p.2.data.contains '|' = false := by
    intro p hp
    exact cleanUnit_bar (hpuClean p.2 (List.of_mem_zip hp).2)
  have hbarR : ∀ p ∈ g.rot.zip ru, p.2.data.contains '|' = false := by
    intro p hp
    exact cleanUnit_bar (hruClean p.2 (List.of_mem_zip hp).2)
  have hbarD : ∀ p ∈ g.dimensions.zip du, p.2.data.contains '|' = false := by
    intro p hp
    exact cleanUnit_bar (hduClean p.2 (List.of_mem_zip hp).2)
  have hbar : ∀ f ∈ [g.name, g.mother, g.description,
      tokcat (g.pos.zip pu),
      (if g.rot_order ≠ "" then "ordered: " ++ g.rot_order ++ " " else "")
        ++ tokcat (g.rot.zip ru),
      g.col, g.g4type, tokcat (g.dimensions.zip du), g.material, g.magfield,
      intStr g.ncopy, intStr g.pmany, intStr g.exist, intStr g.visible,
      intStr g.style, g.sensitivity, g.hittype, g.identity],
      f.data.contains '|' = false := by
    intro f hf
    simp only [List.mem_cons, List.not_mem_nil, or_false] at hf
    rcases hf with rfl | rfl | rfl | rfl | rfl | rfl | rfl | rfl | rfl | rfl
      | rfl | rfl | rfl | rfl | rfl | rfl | rfl | rfl
    · exact cleanStr_no_bar hnm
    · exact cleanStr_no_bar hmo
    · exact cleanStr_no_bar hde
    · exact tokcat_no_bar _ hbarP
    · exact rotField_no_bar _ _ hob (tokcat_no_bar _ hbarR)
    · exact cleanStr_no_bar hco
    · exact cleanStr_no_bar hg4
    · exact tokcat_no_bar _ hbarD
    · exact cleanStr_no_bar hma
    · exact cleanStr_no_bar hmg
    · exact intStr_no_bar g.ncopy
    · exact intStr_no_bar g.pmany
    · exact intStr_no_bar g.exist
    · exact intStr_no_bar g.visible
    · exact intStr_no_bar g.style
    · exact cleanStr_no_bar hse
    · exact cleanStr_no_bar hhi
    · exact cleanStr_no_bar hid
  rw [roundTrip, geo_line_fields g (tokcat (g.pos.zip pu))
    (tokcat (g.rot.zip ru)) (tokcat (g.dimensions.zip du)) hm1 hm2 hm3,
    except_bind_ok, txt_parse_line,
    stripChunks _ (List.cons_ne_nil _ _) hbar]
  simp only [List.map_cons, List.map_nil]
  rw [cleanStr_strip hnm, cleanStr_strip hmo, cleanStr_strip hde,
    cleanStr_strip hco, cleanStr_strip hg4, cleanStr_strip hma,
    cleanStr_strip hmg, cleanStr_strip hse, cleanStr_strip hhi,
    cleanStr_strip hid, strip_intStr g.ncopy, strip_intStr g.pmany,
    strip_intStr g.exist, strip_intStr g.visible, strip_intStr g.style]
  rw [txtParseFields_eval g.name g.mother g.description
    (strip (tokcat (g.pos.zip pu)))
    (strip ((if g.rot_order ≠ "" then "ordered: " ++ g.rot_order ++ " " else "")
      ++ tokcat (g.rot.zip ru)))
    g.col g.g4type (strip (tokcat (g.dimensions.zip du)))
    g.material g.magfield g.sensitivity g.hittype g.identity
    g.ncopy g.pmany g.exist g.visible g.style
    g.pos pu g.rot ru g.rot_order g.dimensions du
    hpParse hrParse hdParse]
  rw [← hpuEq, ← hruEq, ← hduEq]

/-- C5 counterexample: a record with a shared unit string (`pos_units`
as one `"cm"` for all components) validates cleanly (`validate` returns 0),
yet serializing and re-reading produces a record whose `pos_units` is the
per-component list `["cm","cm","cm"]`, not an equal record. -/
theorem C5_counterexample :
    validate ({ boxRec with pos_units := UStr.one "cm" }) = 0 ∧
    roundTrip ({ boxRec with pos_units := UStr.one "cm" })
      = .ok (some boxRec) ∧
    ({ boxRec with pos_units := UStr.one "cm" } : GRec) ≠ boxRec := by
  refine ⟨by decide, by decide, by decide⟩

theorem C5_serialize_reparse_roundtrip_witness :
    roundTripReady boxRec = true ∧ roundTrip boxRec = .ok (some boxRec) :=
  ⟨by decide, C5_serialize_reparse_roundtrip boxRec (by decide)⟩

theorem bind_error_of {α β : Type} {x : Except PyErr α} {e : PyErr}
    (h : x = .error e) (f : α → Except PyErr β) : (x >>= f) = .error e := by
  rw [h]
  rfl

set_option maxHeartbeats 2000000 in
/-- C1: in the concrete scenario (`Box1` at `(2,0,0)` cm and `Box2` at
`(5,0,0)` cm under `root`, identity rotations, and
`Combo = Operation:@Box1-Box2`), building `Combo` stores a composite
shape whose second-operand combi-trans carries the net translation
`(3,0,0)` = translation(Box2) − translation(Box1), not `(5,0,0)`. -/
theorem C1_relative_operation_net_translation :
    ∃ st sh1 sh2 tr2,
      place_volume demoStore 9 comboRec (some "root") rootState = .ok st ∧
      lookupA "Combo" st.shapes = some (RShape.composite '-' sh1 sh2 tr2) ∧
      tr2.vec = ⟨3, 0, 0⟩ ∧ tr2.vec ≠ ⟨5, 0, 0⟩ := by
  refine ⟨_, _, _, _, rfl, rfl, ?_, ?_⟩
  · simp [compute_combi_trans, Rot3.apply, Rot3.mul, Rot3.rotateX,
      Rot3.rotateY, Rot3.rotateZ, Rot3.rotX, Rot3.rotY, Rot3.rotZ,
      Rot3.ident, Vec3.sub]
    norm_num
  · simp [compute_combi_trans, Rot3.apply, Rot3.mul, Rot3.rotateX,
      Rot3.rotateY, Rot3.rotateZ, Rot3.rotX, Rot3.rotY, Rot3.rotZ,
      Rot3.ident, Vec3.sub, Vec3.mk.injEq]

theorem cyc_all : ∀ fuel : ℕ,
    place_volume cycStore fuel cycARec none cycStAB = .error .recursionLimit ∧
    get_volume_shape cycStore fuel cycARec cycStAB = .error .recursionLimit ∧
    place_volume cycStore fuel cycBRec none cycStAB = .error .recursionLimit ∧
    get_volume_shape cycStore fuel cycBRec cycStAB = .error .recursionLimit ∧
    place_volume cycStore fuel cycBRec none cycStA = .error .recursionLimit ∧
    get_volume_shape cycStore fuel cycARec cycStA = .error .recursionLimit ∧
    place_volume cycStore fuel cycARec (some "root") rootState
      = .error .recursionLimit ∧
    place_volume cycStore fuel cycARec none cycStBA = .error .recursionLimit ∧
    get_volume_shape cycStore fuel cycARec cycStBA = .error .recursionLimit ∧
    place_volume cycStore fuel cycBRec none cycStBA = .error .recursionLimit ∧
    get_volume_shape cycStore fuel cycBRec cycStBA = .error .recursionLimit ∧
    place_volume cycStore fuel cycARec none cycStB = .error .recursionLimit ∧
    get_volume_shape cycStore fuel cycBRec cycStB = .error .recursionLimit ∧
    place_volume cycStore fuel cycBRec (some "root") rootState
      = .error .recursionLimit := by
  intro fuel
  induction fuel with
  | zero =>
      exact ⟨rfl, rfl, rfl, rfl, rfl, rfl, rfl, rfl, rfl, rfl, rfl, rfl,
        rfl, rfl⟩
  | succ f ih =>
      obtain ⟨h1, h2, h3, h4, h5, h6, h7, h8, h9, h10, h11, h12, h13, h14⟩ := ih
      refine ⟨?_, ?_, ?_, ?_, ?_, ?_, ?_, ?_, ?_, ?_, ?_, ?_, ?_, ?_⟩
      · exact bind_error_of h2 _
      · exact bind_error_of (bind_error_of h3 _) _
      · exact bind_error_of h4 _
      · exact bind_error_of (bind_error_of h1 _) _
      · exact bind_error_of h4 _
      · exact bind_error_of (bind_error_of h5 _) _
      · exact bind_error_of h6 _
      · exact bind_error_of h9 _
      · exact bind_error_of (bind_error_of h10 _) _
      · exact bind_error_of h11 _
      · exact bind_error_of (bind_error_of h8 _) _
      · exact bind_error_of h9 _
      · exact bind_error_of (bind_error_of h12 _) _
      · exact bind_error_of h13 _

/-- C2: a store in which two Operation records name each other as
operands makes the build recurse forever: `place_volume` and
`get_volume_shape` call each other without ever memoizing a shape, so
for EVERY recursion budget the build of either volume aborts with the
recursion-limit error (Python's `RecursionError`).  No
`CyclicGeometryError` exists anywhere in the source and no cycle check
is performed. -/
theorem C2_mutual_operation_cycle_diverges (fuel : ℕ) :
    place_volume cycStore fuel cycARec (some "root") rootState
      = .error .recursionLimit ∧
    place_volume cycStore fuel cycBRec (some "root") rootState
      = .error .recursionLimit :=
  ⟨(cyc_all fuel).2.2.2.2.2.2.1,
   (cyc_all fuel).2.2.2.2.2.2.2.2.2.2.2.2.2⟩

theorem bind_ok_of {α β : Type} {x : Except PyErr α} {v : α}
    (h : x = .ok v) (f : α → Except PyErr β) : (x >>= f) = f v := by
  rw [h]
  rfl

/-- C3 (amended): a record with `exist = 0` whose mother exists and whose
shape is not yet memoized has its translation and rotation stored, and
`place_volume` then returns BEFORE `get_volume_shape` runs: the shape
table, the volume table and the node list are all left unchanged, so no
solid is built or memoized for it. -/
theorem C3_exist_zero_skips_shape_build (store : List GRec) (fuel : ℕ)
    (geo : GRec) (motherArg : Option String) (st : RState) (v : Vec3) (r : Rot3)
    (hm : st.volumes.contains (motherArg.getD geo.mother) = true)
    (hs : lookupA geo.name st.shapes = none)
    (hv : compute_trans_vector geo = .ok v)
    (hr : compute_trans_rotation geo = .ok r)
    (he : geo.exist = 0) :
    place_volume store (fuel + 1) geo motherArg st
      = .ok { st with translations := insertA geo.name (v, r) st.translations } :=
  (if_neg (by
    intro h
    rw [hm] at h
    exact Bool.noConfusion h)).trans ((if_neg (by simp [hs])).trans
    ((bind_ok_of hv _).trans ((bind_ok_of hr _).trans (if_pos he))))

theorem C3_exist_zero_skips_shape_build_witness :
    place_volume czStore 5 czRec (some "root") rootState
      = .ok { rootState with
                translations := insertA "CZero" (cycV, cycR)
                  rootState.translations } :=
  C3_exist_zero_skips_shape_build czStore 4 czRec (some "root") rootState
    cycV cycR (by decide) rfl rfl rfl rfl

set_option maxHeartbeats 1000000 in
/-- C3 counterexample: building the `exist = 0` record `CZero` leaves the
shape table without an entry for it (its solid is never constructed),
and a composite volume that names `CZero` as an operand fails with
`KeyError` instead of finding a usable operand shape. -/
theorem C3_counterexample :
    (∃ st, place_volume czStore 5 czRec (some "root") rootState = .ok st ∧
      lookupA "CZero" st.shapes = none) ∧
    place_volume czStore 9 czCombo (some "root") rootState
      = .error (.keyError "CZero") := by
  refine ⟨⟨_, rfl, rfl⟩, rfl⟩

end PyGeom
